import Mathlib

/-!
Verification of the Sarah AI agent core (`src/plugins/ai_agent/ai_core.py` and
`src/plugins/ai_agent/conversation_manager.py`) against its natural-language
specification.

Modelling conventions, used throughout:

* Python strings are Lean `String`s; Python substring containment `a in b` is
  char-list infix (`a.toList <:+: b.toList`); Python `str.lower()` is a
  character-wise `Char.toLower` map (the source only compares ASCII text).
* Python floats are modelled as `ℚ` (all arithmetic the source performs on
  confidences is division and comparison, which is exact here).
* `datetime` values are modelled as `Nat` time units (seconds); each public
  operation is passed a single `now` argument standing for the wall clock at
  the time of the call (the source reads the clock at most a few microseconds
  apart inside one call; the model treats a call as atomic in time).
  `timedelta(minutes=m)` is `m * 60`.
* The sentence-transformer model and spaCy pipeline are external resources
  (out of scope per the spec); they are modelled as function parameters:
  `sim cleanedText pluginName` stands for
  `cosine_similarity(encode(cleanedText), plugin_embeddings[pluginName])`,
  and `nlp : String → SpacyDoc` stands for the spaCy document of a text.
* `random.choice(pool)` is modelled as `pick pool i` for an externally
  injected index `i`, i.e. `pool[i % len(pool)]`.
-/

/-- Python whitespace class `\s` (ASCII part), as matched by `re.sub(r'\s+', ...)`. -/
def is_space (c : Char) : Bool :=
  c = ' ' || c = '\t' || c = '\n' || c = '\r' || c = '\x0b' || c = '\x0c'

/-- Python `str.strip()` on a character list. -/
def strip_ws (l : List Char) : List Char :=
  ((l.dropWhile is_space).reverse.dropWhile is_space).reverse

/-- Python `re.sub(r'\s+', ' ', ...)`: collapse each whitespace run to one
space (the single space is emitted at the end of the run). -/
def collapse_ws : List Char → List Char
  | [] => []
  | [c] => if is_space c then [' '] else [c]
  | c :: d :: cs =>
    if is_space c then
      if is_space d then collapse_ws (d :: cs) else ' ' :: collapse_ws (d :: cs)
    else c :: collapse_ws (d :: cs)

/-- `SarahAICore._clean_input`: collapse whitespace runs, strip, lower-case. -/
def clean_input (s : String) : String :=
  String.mk ((collapse_ws (strip_ws s.toList)).map Char.toLower)

/-- Python `str.lower()`. -/
def py_lower (s : String) : String := String.mk (s.toList.map Char.toLower)

/-- Whether the first list is an initial segment of the second. -/
def starts_with_chars : List Char → List Char → Bool
  | [], _ => true
  | _ :: _, [] => false
  | a :: as, b :: bs => (a = b) && starts_with_chars as bs

/-- Substring occurrence at any position (the empty needle always occurs). -/
def contains_chars (needle : List Char) : List Char → Bool
  | [] => needle.isEmpty
  | b :: bs => starts_with_chars needle (b :: bs) || contains_chars needle bs

/-- Python substring test `needle in hay` on strings. -/
def contains_sub (needle hay : String) : Bool :=
  contains_chars needle.toList hay.toList

/-- Python `str.split()`: split on whitespace runs, discarding empty pieces. -/
def py_words_aux : List Char → List Char → List String
  | [], acc => if acc.isEmpty then [] else [String.mk acc.reverse]
  | c :: cs, acc =>
    if is_space c then
      if acc.isEmpty then py_words_aux cs [] else String.mk acc.reverse :: py_words_aux cs []
    else py_words_aux cs (c :: acc)

def py_words (s : String) : List String := py_words_aux s.toList []

/-- `PluginInfo` dataclass from `ai_core.py`. -/
structure PluginInfo where
  name : String
  description : String
  examples : List String
  keywords : List String
  parameters : List String
deriving DecidableEq, Repr

/-- The entity mapping built by `SarahAICore._extract_entities`: the only keys
the source ever writes are `person`, `org`, `gpe`, `loc` and `search_terms`,
so the open Python dict is modelled as a record of those optional keys. -/
structure Entities where
  person : Option String := none
  org : Option String := none
  gpe : Option String := none
  loc : Option String := none
  search_terms : Option (List String) := none
deriving DecidableEq, Repr

def empty_entities : Entities := {}

/-- `Intent` dataclass from `ai_core.py`. -/
structure Intent where
  plugin_name : String
  confidence : ℚ
  entities : Entities
  raw_text : String
deriving DecidableEq, Repr

/-- The built-in plugin catalog from `SarahAICore._load_plugin_definitions`,
in Python dict insertion order. -/
def sarah_plugins : List PluginInfo := [
  { name := "weather",
    description := "Get weather information and forecasts for any location",
    examples := ["what\x27s the weather like?", "show me the weather in New York",
                 "is it going to rain today?", "weather forecast for London"],
    keywords := ["weather", "temperature", "rain", "snow", "forecast", "climate"],
    parameters := ["location"] },
  { name := "time",
    description := "Show current time and date information",
    examples := ["what time is it?", "show me the current time",
                 "what\x27s today\x27s date?", "current time and date"],
    keywords := ["time", "date", "clock", "current", "now"],
    parameters := [] },
  { name := "wiki",
    description := "Search Wikipedia for information about topics",
    examples := ["tell me about Albert Einstein", "search Wikipedia for Python programming",
                 "what is machine learning?", "wiki information about Paris"],
    keywords := ["wiki", "wikipedia", "information", "about", "tell me", "search"],
    parameters := ["topic", "query"] },
  { name := "google",
    description := "Search Google for information and websites",
    examples := ["google search for best restaurants", "search the web for Python tutorials",
                 "find information about cars", "web search for news"],
    keywords := ["google", "search", "web", "find", "look up"],
    parameters := ["query", "search_term"] },
  { name := "youtube",
    description := "Search YouTube for videos",
    examples := ["find videos about cooking", "search YouTube for music",
                 "show me tutorials on programming", "youtube search for funny cats"],
    keywords := ["youtube", "video", "videos", "watch", "music", "tutorial"],
    parameters := ["query", "search_term"] },
  { name := "github",
    description := "Search GitHub for repositories and code",
    examples := ["find Python projects on GitHub", "search GitHub for machine learning repos",
                 "show me JavaScript libraries", "github search for web frameworks"],
    keywords := ["github", "repository", "code", "project", "library", "framework"],
    parameters := ["query", "search_term"] },
  { name := "whois",
    description := "Get information about people, domains, or entities",
    examples := ["who is Elon Musk?", "tell me about Steve Jobs",
                 "information about Albert Einstein", "whois domain.com"],
    keywords := ["who", "whois", "about", "information", "person", "biography"],
    parameters := ["person", "domain", "entity"] },
  { name := "watch",
    description := "Get movie and TV show information from IMDB",
    examples := ["tell me about Titanic movie", "movie information for Inception",
                 "show details for Breaking Bad", "IMDB info for The Matrix"],
    keywords := ["movie", "film", "tv show", "series", "imdb", "watch", "cinema"],
    parameters := ["title", "movie_name", "show_name"] },
  { name := "speedtest",
    description := "Test internet connection speed",
    examples := ["test my internet speed", "check connection speed",
                 "how fast is my internet?", "run speed test"],
    keywords := ["speed", "internet", "connection", "bandwidth", "test"],
    parameters := [] },
  { name := "adhan",
    description := "Get Islamic prayer times for locations",
    examples := ["prayer times for Mecca", "adhan times in Cairo Egypt",
                 "when is Fajr prayer in London?", "Islamic prayer schedule"],
    keywords := ["prayer", "adhan", "islamic", "fajr", "dhuhr", "asr", "maghrib", "isha"],
    parameters := ["city", "country"] },
  { name := "hi",
    description := "Greeting and general conversation",
    examples := ["hello", "hi there", "good morning", "how are you?"],
    keywords := ["hello", "hi", "hey", "greetings", "good morning", "good evening"],
    parameters := [] },
  { name := "marketwatch",
    description := "Get stock market and financial information",
    examples := ["stock price for Apple", "market info for GOOGL",
                 "check Tesla stock", "financial data for Microsoft"],
    keywords := ["stock", "market", "price", "shares", "financial", "investment"],
    parameters := ["symbol", "stock_name", "country", "security_type"] }
]

/-- The keys of `plugin_embeddings`, built by iterating `plugins_info` in order. -/
def plugin_names : List String := sarah_plugins.map PluginInfo.name

/-- One fold step of the best-match scan shared by
`_find_best_plugin_match` and `_keyword_based_matching`: replace the current
best only on a strictly greater score. -/
def best_scan {α : Type} (score : α → ℚ) (name : α → String)
    (l : List α) (b : String × ℚ) : String × ℚ :=
  l.foldl (fun best x => if score x > best.2 then (name x, score x) else best) b

/-- `SarahAICore._find_best_plugin_match` (embedding branch): iterate the
plugin embeddings in catalog order, keeping the strictly best similarity and
starting from the default `('hi', 0.0)`. `sim` abstracts the cosine
similarity of the input embedding with a named plugin embedding. -/
def find_best_plugin_match (sim : String → ℚ) (names : List String) : String × ℚ :=
  names.foldl (fun best p => if sim p > best.2 then (p, sim p) else best) ("hi", 0)

/-- Score of one plugin in `_keyword_based_matching`:
`(count of keywords occurring as substrings of text) / (number of keywords)`,
and `0` for a plugin with no keywords. -/
def keyword_score (text : String) (p : PluginInfo) : ℚ :=
  if p.keywords = [] then 0
  else ((p.keywords.countP (fun k => contains_sub k text) : ℚ)) / (p.keywords.length : ℚ)

/-- `SarahAICore._keyword_based_matching`: keyword-ratio scan over the catalog
starting from the default `('hi', 0.0)`.  Note the source checks each keyword
as a substring of `text` exactly as passed (it lower-cases only the unused
`words` set). -/
def keyword_based_matching (plugins : List PluginInfo) (text : String) : String × ℚ :=
  plugins.foldl
    (fun best p =>
      let s := keyword_score text p
      if s > best.2 then (p.name, s) else best)
    ("hi", 0)

/-- A spaCy named entity: its (lower-cased) label and its text. -/
structure SpacyEnt where
  label : String
  text : String
deriving DecidableEq, Repr

/-- A spaCy token with the attributes the source reads. -/
structure SpacyToken where
  text : String
  is_stop : Bool
  is_punct : Bool
deriving DecidableEq, Repr

/-- A spaCy document: the entity spans and tokens of a text, in order. -/
structure SpacyDoc where
  ents : List SpacyEnt
  tokens : List SpacyToken
deriving DecidableEq, Repr

/-- Whether a spaCy pipeline is loaded (`self.nlp`): if so, it is an external
function from text to documents; otherwise the source falls back to
whitespace tokenization. -/
inductive ExtractMode where
  | spacy (nlp : String → SpacyDoc)
  | fallback

/-- The stop-word set of the fallback branch of `_extract_entities`. -/
def stop_words : List String :=
  ["the", "is", "at", "which", "on", "a", "an", "and", "or", "but",
   "in", "with", "to", "for", "of", "as", "by"]

/-- The spaCy branch of `_extract_entities`, as a function of the document:
keep the last entity text seen per relevant label, and all non-stop
non-punct tokens longer than 2 characters, in order, as `search_terms`
(key omitted when the list is empty). -/
def spacy_entities (doc : SpacyDoc) : Entities :=
  let e0 := doc.ents.foldl
    (fun e ent =>
      if ent.label = "person" then { e with person := some ent.text }
      else if ent.label = "org" then { e with org := some ent.text }
      else if ent.label = "gpe" then { e with gpe := some ent.text }
      else if ent.label = "loc" then { e with loc := some ent.text }
      else e)
    empty_entities
  let terms := (doc.tokens.filter
    (fun t => !t.is_stop && !t.is_punct && t.text.length > 2)).map SpacyToken.text
  if terms.isEmpty then e0 else { e0 with search_terms := some terms }

/-- `SarahAICore._extract_entities`. In spaCy mode: `spacy_entities` of the
document of the text.  In fallback mode: whitespace-split, drop stop words
and short words. -/
def extract_entities (mode : ExtractMode) (text : String) : Entities :=
  match mode with
  | .spacy nlp => spacy_entities (nlp text)
  | .fallback =>
    let terms := (py_words text).filter
      (fun w => !(stop_words.contains w) && w.length > 2)
    if terms.isEmpty then empty_entities
    else { empty_entities with search_terms := some terms }

/-- Whether a sentence-transformer model is loaded (`self.sentence_model`):
if so, matching uses embeddings via the abstract similarity `sim`; otherwise
the keyword fallback. -/
inductive MatchMode where
  | embedding (sim : String → String → ℚ)
  | keyword

/-- `SarahAICore.understand_input`: clean, extract entities, match, and wrap
the result in an `Intent` keeping the original text. -/
def understand_input (em : ExtractMode) (mm : MatchMode)
    (plugins : List PluginInfo) (user_input : String) : Intent :=
  let cleaned := clean_input user_input
  let entities := extract_entities em cleaned
  let m := match mm with
    | .embedding sim => find_best_plugin_match (sim cleaned) (plugins.map PluginInfo.name)
    | .keyword => keyword_based_matching plugins cleaned
  { plugin_name := m.1, confidence := m.2, entities := entities, raw_text := user_input }

/-- One suggestion record returned by `get_suggestions`.  The fallback branch
of the source builds a dict without a `description` key, hence the `Option`. -/
structure Suggestion where
  plugin : String
  confidence : ℚ
  description : Option String
deriving DecidableEq, Repr

/-- Insert into a descending-sorted list after all entries with a score at
least as large; this is the stable descending sort step. -/
def insert_desc (x : Suggestion) : List Suggestion → List Suggestion
  | [] => [x]
  | y :: ys => if x.confidence ≤ y.confidence then y :: insert_desc x ys else x :: y :: ys

/-- Python `list.sort(key=confidence, reverse=True)`: a stable descending
sort.  (Stable sorts for a fixed key agree on every input, so this insertion
sort computes exactly the list Python's Timsort produces.) -/
def sort_desc (l : List Suggestion) : List Suggestion :=
  l.foldl (fun acc x => insert_desc x acc) []

/-- `SarahAICore.get_suggestions`.  In embedding mode: score every catalog
plugin against the cleaned input, sort descending, take the top
`max_suggestions`.  In keyword mode the source returns the single best
keyword match for the raw (uncleaned) input, with no description. -/
def get_suggestions (mm : MatchMode) (plugins : List PluginInfo)
    (user_input : String) (max_suggestions : Nat) : List Suggestion :=
  match mm with
  | .keyword =>
    let m := keyword_based_matching plugins user_input
    [{ plugin := m.1, confidence := m.2, description := none }]
  | .embedding sim =>
    let cleaned := clean_input user_input
    let suggestions := plugins.map
      (fun p => { plugin := p.name, confidence := sim cleaned p.name,
                  description := some p.description : Suggestion })
    (sort_desc suggestions).take max_suggestions

/-- `ConversationTurn` dataclass from `conversation_manager.py`
(timestamps as `Nat` time units, see the module comment). -/
structure ConversationTurn where
  timestamp : Nat
  user_input : String
  intent_plugin : String
  intent_confidence : ℚ
  entities : Entities
  sarah_response : String
  execution_successful : Bool
deriving DecidableEq, Repr

/-- `user_preferences`: the source only ever writes the keys
`preferred_plugins` (a plugin-to-count dict, modelled as an insertion-ordered
association list) and `preferred_location`.  The dataclass default `None` and
the empty dict both correspond to both fields being `none`. -/
structure Prefs where
  preferred_plugins : Option (List (String × Nat)) := none
  preferred_location : Option String := none
deriving DecidableEq, Repr

/-- `ConversationContext` dataclass from `conversation_manager.py`. -/
structure ConversationContext where
  session_id : String
  started_at : Nat
  last_interaction : Nat
  turns : List ConversationTurn
  active_topic : Option String := none
  user_preferences : Prefs := {}
  location_context : Option String := none
deriving DecidableEq, Repr

/-- `ConversationManager` state.  `conversation_history` is a Python dict,
modelled as an insertion-ordered association list; `session_timeout` is
`session_timeout_minutes * 60` time units. -/
structure ConversationManager where
  max_context_turns : Nat
  session_timeout : Nat
  current_context : Option ConversationContext
  conversation_history : List (String × ConversationContext)
deriving DecidableEq, Repr

/-- `create_conversation_manager`: fresh manager with no current context. -/
def create_conversation_manager (max_context_turns session_timeout_minutes : Nat) :
    ConversationManager :=
  { max_context_turns := max_context_turns,
    session_timeout := session_timeout_minutes * 60,
    current_context := none,
    conversation_history := [] }

def greeting_responses : List String :=
  ["Hello! I\x27m Sarah, your AI assistant. How can I help you today?",
   "Hi there! What can I do for you?",
   "Hey! Ready to help you with anything you need.",
   "Good to see you! What would you like me to help with?"]

def farewell_responses : List String :=
  ["Goodbye! Feel free to ask me anything anytime.",
   "See you later! I\x27m always here when you need help.",
   "Take care! Don\x27t hesitate to come back if you need anything.",
   "Bye! Looking forward to helping you again soon."]

def confusion_responses : List String :=
  ["I\x27m not quite sure what you mean. Could you rephrase that?",
   "Could you be more specific? I want to make sure I help you correctly.",
   "I didn\x27t quite catch that. Can you try asking in a different way?",
   "Let me try to understand better. What exactly are you looking for?"]

def acknowledgment_responses : List String :=
  ["Got it!", "Understood!", "Perfect!", "Sure thing!", "Absolutely!", "No problem!"]

/-- `random.choice(pool)` with an injected index: `pool[i % len(pool)]`. -/
def pick (pool : List String) (i : Nat) : String := pool.getD (i % pool.length) ""

/-- Python dict assignment `d[k] = v` on an insertion-ordered association
list: an existing key keeps its position, a new key is appended. -/
def alist_set (k : String) (v : ConversationContext) :
    List (String × ConversationContext) → List (String × ConversationContext)
  | [] => [(k, v)]
  | (k2, v2) :: rest =>
    if k2 = k then (k, v) :: rest else (k2, v2) :: alist_set k v rest

/-- `ConversationManager._cleanup_old_sessions`: delete every context with
`last_interaction < now - session_timeout` (over the integers, i.e.
`last_interaction + session_timeout < now`). -/
def cleanup_old_sessions (mgr : ConversationManager) (now : Nat) : ConversationManager :=
  let kept := mgr.conversation_history.filter
    (fun e => !(e.2.last_interaction + mgr.session_timeout < now))
  { mgr with conversation_history := kept }

/-- `ConversationManager.start_conversation`: create a fresh context (id
`"session_<now>"` when none is given), make it current, store it in the
history, then opportunistically clean up old sessions; return a random
greeting.  The stored entry and `current_context` alias one object in
Python; the model keeps them equal. -/
def start_conversation (mgr : ConversationManager) (now : Nat)
    (session_id : Option String) (gIdx : Nat) : ConversationManager × String :=
  let sid := session_id.getD ("session_" ++ toString now)
  let ctx : ConversationContext :=
    { session_id := sid, started_at := now, last_interaction := now,
      turns := [], user_preferences := {} }
  let mgr := { mgr with
    current_context := some ctx,
    conversation_history := alist_set sid ctx mgr.conversation_history }
  (cleanup_old_sessions mgr now, pick greeting_responses gIdx)

/-- The trim step of `add_turn`: `if len(turns) > max: turns = turns[-max:]`.
Note the Python pitfall this preserves: for `max = 0` the slice `turns[-0:]`
is the whole list, so nothing is ever dropped. -/
def trim_turns (maxT : Nat) (ts : List ConversationTurn) : List ConversationTurn :=
  if ts.length > maxT then (if maxT = 0 then ts else ts.drop (ts.length - maxT)) else ts

/-- `ConversationManager._update_active_topic`: prefer the first up-to-3
search terms joined by spaces; else, for a topic-defining plugin, the plugin
name; else leave the topic unchanged. -/
def update_active_topic (c : ConversationContext) (intent_plugin : String)
    (ents : Entities) : ConversationContext :=
  if (ents.search_terms.getD []) ≠ [] then
    { c with active_topic := some (String.intercalate " " ((ents.search_terms.getD []).take 3)) }
  else if ["weather", "time", "speedtest"].contains intent_plugin then
    { c with active_topic := some intent_plugin }
  else c

/-- Python `d.get(k, 0); d[k] = ... + 1` on an ordered association list. -/
def bump_assoc (k : String) : List (String × Nat) → List (String × Nat)
  | [] => [(k, 1)]
  | (k2, n) :: rest =>
    if k2 = k then (k2, n + 1) :: rest else (k2, n) :: bump_assoc k rest

/-- Python `a or b` on optional strings: `a` unless it is missing or empty. -/
def py_or (a b : Option String) : Option String :=
  match a with
  | some s => if s = "" then b else some s
  | none => b

/-- `ConversationManager._update_user_preferences`: increment the per-plugin
usage counter; when a `gpe` or `loc` entity key is present, overwrite
`location_context` and `preferred_location` with `gpe or loc`. -/
def update_user_preferences (c : ConversationContext) (ents : Entities)
    (intent_plugin : String) : ConversationContext :=
  let pp := c.user_preferences.preferred_plugins.getD []
  let prefs1 : Prefs :=
    { c.user_preferences with preferred_plugins := some (bump_assoc intent_plugin pp) }
  if ents.gpe.isSome || ents.loc.isSome then
    let location := py_or ents.gpe ents.loc
    { c with
      user_preferences := { prefs1 with preferred_location := location },
      location_context := location }
  else
    { c with user_preferences := prefs1 }

/-- The body of `ConversationManager.add_turn` once a context is current:
append the turn; bump `last_interaction`; update the topic; trim the turns;
update preferences.  In Python the stored history entry aliases
`current_context`, so the model writes the mutated context back to its
history slot (when that slot exists). -/
def add_turn_core (mgr : ConversationManager) (now : Nat)
    (user_input intent_plugin : String) (intent_confidence : ℚ) (ents : Entities)
    (sarah_response : String) (execution_successful : Bool) :
    ConversationManager :=
  match mgr.current_context with
  | none => mgr
  | some c =>
    let turn : ConversationTurn :=
      { timestamp := now, user_input := user_input, intent_plugin := intent_plugin,
        intent_confidence := intent_confidence, entities := ents,
        sarah_response := sarah_response, execution_successful := execution_successful }
    let c := { c with turns := c.turns ++ [turn], last_interaction := now }
    let c := update_active_topic c intent_plugin ents
    let c := { c with turns := trim_turns mgr.max_context_turns c.turns }
    let c := update_user_preferences c ents intent_plugin
    { mgr with
      current_context := some c,
      conversation_history :=
        mgr.conversation_history.map (fun e => if e.1 = c.session_id then (e.1, c) else e) }

/-- `ConversationManager.add_turn`: implicitly start a conversation when
none is current, then run the turn-recording body. -/
def add_turn (mgr : ConversationManager) (now : Nat)
    (user_input intent_plugin : String) (intent_confidence : ℚ) (ents : Entities)
    (sarah_response : String) (execution_successful : Bool) (gIdx : Nat) :
    ConversationManager :=
  if mgr.current_context.isNone then
    add_turn_core ((start_conversation mgr now none gIdx).1) now user_input intent_plugin
      intent_confidence ents sarah_response execution_successful
  else
    add_turn_core mgr now user_input intent_plugin
      intent_confidence ents sarah_response execution_successful

def greeting_patterns : List String :=
  ["hello", "hi", "hey", "good morning", "good afternoon",
   "good evening", "greetings", "howdy"]

def farewell_patterns : List String :=
  ["goodbye", "bye", "see you", "farewell", "exit", "quit",
   "thanks", "thank you", "that\x27s all"]

def follow_up_words : List String :=
  ["also", "and", "what about", "how about", "more", "another"]

/-- `ConversationManager._is_greeting`: any greeting phrase occurs as a
substring of the lower-cased input. -/
def is_greeting (user_input : String) : Bool :=
  greeting_patterns.any (fun g => contains_sub g (py_lower user_input))

/-- `ConversationManager._is_farewell`. -/
def is_farewell (user_input : String) : Bool :=
  farewell_patterns.any (fun f => contains_sub f (py_lower user_input))

/-- `ConversationManager._is_follow_up_question`: false when there is no
current context or it has no turns; otherwise true when the last turn used
the same plugin less than 2 minutes ago, or the input contains a
continuation word. -/
def is_follow_up_question (c : Option ConversationContext) (now : Nat)
    (user_input intent_plugin : String) : Bool :=
  c.elim false (fun ctx =>
    ctx.turns.getLast?.elim false (fun last =>
      if now - last.timestamp < 120 && intent_plugin = last.intent_plugin then true
      else follow_up_words.any (fun w => contains_sub w (py_lower user_input))))

/-- `ConversationManager._get_contextual_greeting`. -/
def get_contextual_greeting (c : Option ConversationContext) (gIdx : Nat) : String :=
  c.elim (pick greeting_responses gIdx) (fun ctx =>
    if ctx.turns ≠ [] then "Welcome back! What else can I help you with?"
    else pick greeting_responses gIdx)

/-- `ConversationManager._get_farewell_response`. -/
def get_farewell_response (c : Option ConversationContext) (fIdx : Nat) : String :=
  let base := pick farewell_responses fIdx
  c.elim base (fun ctx =>
    if ctx.turns.length > 0 then base ++ " It was great helping you today!" else base)

/-- `ConversationManager._handle_follow_up`. -/
def handle_follow_up (base_response : String) (aIdx : Nat) : String :=
  pick acknowledgment_responses aIdx ++ " Here\x27s more information:\n" ++ base_response

/-- `ConversationManager._add_context_to_response`: append a remembered
location hint for `weather` when the stored location is truthy and not
already in the response, then a related-topic hint for the search plugins
when the stored topic is truthy and not already in the (possibly extended)
response. -/
def add_context_to_response (c : ConversationContext) (base_response : String)
    (intent_plugin : String) (_ents : Entities) : String :=
  let r1 := c.location_context.elim base_response (fun loc =>
    if intent_plugin = "weather" && loc ≠ "" &&
       !(contains_sub (py_lower loc) (py_lower base_response)) then
      base_response ++ "\n(I remember you usually ask about " ++ loc ++ ")"
    else base_response)
  c.active_topic.elim r1 (fun t =>
    if t ≠ "" && ["wiki", "google", "youtube", "github"].contains intent_plugin &&
       !(contains_sub (py_lower t) (py_lower r1)) then
      r1 ++ "\n(Related to our discussion about " ++ t ++ ")"
    else r1)

/-- `ConversationManager.get_contextual_response`: base response when no
context is current; else greeting, farewell, follow-up, and contextual-hint
branches in that order. -/
def get_contextual_response (mgr : ConversationManager) (now : Nat)
    (user_input intent_plugin : String) (ents : Entities) (base_response : String)
    (gIdx fIdx aIdx : Nat) : String :=
  mgr.current_context.elim base_response (fun c =>
    if is_greeting user_input then get_contextual_greeting (some c) gIdx
    else if is_farewell user_input then get_farewell_response (some c) fIdx
    else if is_follow_up_question (some c) now user_input intent_plugin then
      handle_follow_up base_response aIdx
    else add_context_to_response c base_response intent_plugin ents)

/-- Result of `get_conversation_summary`: either the no-conversation status
record or the summary fields.  Python builds `recent_topics` as
`list(set(...))` whose order is unspecified; the model uses `dedup` as a
deterministic representative. -/
inductive ConversationSummary where
  | no_active_conversation
  | active (session_id : String) (duration : Nat) (total_turns : Nat)
      (active_topic : Option String) (recent_plugins : List String)
      (recent_topics : List String) (user_preferences : Prefs)
deriving DecidableEq, Repr

/-- `ConversationManager.get_conversation_summary` (read-only). -/
def get_conversation_summary (mgr : ConversationManager) (now : Nat) :
    ConversationSummary :=
  match mgr.current_context with
  | none => .no_active_conversation
  | some c =>
    let recent := c.turns.drop (c.turns.length - 5)
    let recent_plugins := recent.foldl
      (fun acc t => if acc.contains t.intent_plugin then acc else acc ++ [t.intent_plugin]) []
    let recent_topics := recent.foldl
      (fun acc t => acc ++ t.entities.search_terms.getD []) []
    .active c.session_id (now - c.started_at) c.turns.length c.active_topic
      recent_plugins recent_topics.dedup c.user_preferences

/-- One decimal digit as a character. -/
def digit_char (d : Nat) : Char := Char.ofNat (48 + d)

/-- Parse one decimal digit character. -/
def parse_digit (c : Char) : Option Nat :=
  if 48 ≤ c.toNat ∧ c.toNat ≤ 57 then some (c.toNat - 48) else none

/-- Little-endian decimal digits of `n`, computed with explicit fuel so that
the definition is structurally recursive (the fuel `n` itself suffices). -/
def nat_to_digits : Nat → Nat → List Nat
  | _, 0 => []
  | 0, _ + 1 => []
  | fuel + 1, n + 1 => ((n + 1) % 10) :: nat_to_digits fuel ((n + 1) / 10)

/-- `datetime.isoformat()`: the injective textual form of a timestamp.  With
timestamps as `Nat` time units this is their decimal numeral; round-tripping
through `fromisoformat` is exact, matching the exactness of ISO-8601
round-trips at the serialized precision. -/
def isoformat (t : Nat) : String :=
  if t = 0 then "0" else String.mk (((nat_to_digits t t).reverse).map digit_char)

def fromiso_go : List Char → Nat → Option Nat
  | [], acc => some acc
  | c :: cs, acc =>
    match parse_digit c with
    | some d => fromiso_go cs (acc * 10 + d)
    | none => none

/-- `datetime.fromisoformat()`: partial inverse of `isoformat`; raising on a
malformed (or empty) string is modelled as `none`. -/
def fromisoformat (s : String) : Option Nat :=
  if s.toList.isEmpty then none else fromiso_go s.toList 0

/-- Serialized form of a turn, as written by `save_conversation_history`:
`asdict(turn)` with the timestamp replaced by its `isoformat` string. -/
structure SerTurn where
  timestamp : String
  user_input : String
  intent_plugin : String
  intent_confidence : ℚ
  entities : Entities
  sarah_response : String
  execution_successful : Bool
deriving DecidableEq, Repr

/-- Serialized form of a context: `asdict(context)` with ISO timestamps and
serialized turns. -/
structure SerContext where
  session_id : String
  started_at : String
  last_interaction : String
  turns : List SerTurn
  active_topic : Option String
  user_preferences : Prefs
  location_context : Option String
deriving DecidableEq, Repr

def ser_turn (t : ConversationTurn) : SerTurn :=
  { timestamp := isoformat t.timestamp, user_input := t.user_input,
    intent_plugin := t.intent_plugin, intent_confidence := t.intent_confidence,
    entities := t.entities, sarah_response := t.sarah_response,
    execution_successful := t.execution_successful }

def ser_context (c : ConversationContext) : SerContext :=
  { session_id := c.session_id, started_at := isoformat c.started_at,
    last_interaction := isoformat c.last_interaction,
    turns := c.turns.map ser_turn, active_topic := c.active_topic,
    user_preferences := c.user_preferences, location_context := c.location_context }

/-- `ConversationManager.save_conversation_history`: the JSON object written
to the file, a mapping from session id to serialized context (all sessions,
in history order).  File-system failure is external; the write itself never
mutates manager state. -/
def save_conversation_history (mgr : ConversationManager) : List (String × SerContext) :=
  mgr.conversation_history.map (fun e => (e.1, ser_context e.2))

/-- Reconstruction of one turn inside `load_conversation_history`:
`datetime.fromisoformat` on the timestamp may raise (modelled as `none`). -/
def parse_turn (st : SerTurn) : Option ConversationTurn :=
  (fromisoformat st.timestamp).map
    (fun ts =>
      { timestamp := ts, user_input := st.user_input,
        intent_plugin := st.intent_plugin, intent_confidence := st.intent_confidence,
        entities := st.entities, sarah_response := st.sarah_response,
        execution_successful := st.execution_successful })

def parse_turns : List SerTurn → Option (List ConversationTurn)
  | [] => some []
  | st :: rest =>
    match parse_turn st with
    | some t => (parse_turns rest).map (fun ts => t :: ts)
    | none => none

/-- Reconstruction of one context: turns first, then the two context
timestamps, failing (raising) on the first malformed field. -/
def parse_context (sc : SerContext) : Option ConversationContext := do
  let turns ← parse_turns sc.turns
  let sa ← fromisoformat sc.started_at
  let li ← fromisoformat sc.last_interaction
  pure { session_id := sc.session_id, started_at := sa, last_interaction := li,
         turns := turns, active_topic := sc.active_topic,
         user_preferences := sc.user_preferences,
         location_context := sc.location_context }

/-- What `load_conversation_history` manages to read from the file before its
processing loop starts: either opening or `json.load` raised (before the
in-memory history is touched), or the parsed entry list. -/
inductive HistoryFile where
  | unreadable
  | parsed (entries : List (String × SerContext))

/-- The reconstruction loop of `load_conversation_history`: entries are
processed in order into a freshly cleared mapping; the first record that
fails to reconstruct raises out of the loop, leaving the partial mapping in
place (the exception is then logged and swallowed). -/
def load_go : List (String × SerContext) → List (String × ConversationContext) →
    List (String × ConversationContext)
  | [], acc => acc
  | (sid, sc) :: rest, acc =>
    match parse_context sc with
    | some c => load_go rest (acc ++ [(sid, c)])
    | none => acc

/-- `ConversationManager.load_conversation_history`: no exception escapes; on
an unreadable file the state is untouched, otherwise `conversation_history`
is replaced by whatever `load_go` reconstructs.  `current_context` is never
touched. -/
def load_conversation_history (mgr : ConversationManager) (f : HistoryFile) :
    ConversationManager :=
  match f with
  | .unreadable => mgr
  | .parsed entries => { mgr with conversation_history := load_go entries [] }

/-- Maximum of the scores of the elements of `l`, floored at `b`. -/
def run_max {α : Type} (score : α → ℚ) (l : List α) (b : ℚ) : ℚ :=
  l.foldr (fun x m => max (score x) m) b

/-- The selection rule the best-match scan actually implements, phrased the
way the (amended) specification reads: when some element scores strictly
positively, pick the first element attaining the maximal score, with that
score as confidence; otherwise fall back to the default `("hi", 0.0)`. -/
def spec_best {α : Type} (score : α → ℚ) (name : α → String) (l : List α) : String × ℚ :=
  let M := run_max score l 0
  if 0 < M then
    (((l.find? (fun x => decide (score x = M))).map name).getD "hi", M)
  else ("hi", 0)

/-- The `weather` action of the two-action example catalog from the
specification (section 8). -/
def example_weather : PluginInfo :=
  { name := "weather", description := "example weather action", examples := [],
    keywords := ["weather", "temperature", "rain", "forecast"], parameters := [] }

/-- The `time` action of the two-action example catalog. -/
def example_time : PluginInfo :=
  { name := "time", description := "example time action", examples := [],
    keywords := ["time", "date", "clock"], parameters := [] }

/-- The two-action example catalog from the specification (section 8). -/
def example_catalog : List PluginInfo := [example_weather, example_time]

/-- A sample stored context used by concrete counterexamples: one old
session that last interacted at time 0. -/
def ctx_old : ConversationContext :=
  { session_id := "old", started_at := 0, last_interaction := 0, turns := [] }

/-- A serialized context whose single turn has an unparsable timestamp, so
its reconstruction raises inside the load loop. -/
def bad_ser_context : SerContext :=
  { session_id := "s1", started_at := "0", last_interaction := "0",
    turns := [{ timestamp := "garbage", user_input := "x", intent_plugin := "hi",
                intent_confidence := 1, entities := {}, sarah_response := "y",
                execution_successful := true }],
    active_topic := none, user_preferences := {}, location_context := none }

/-- Manager state for the load counterexample: a session is already in
memory before the failing load. -/
def mgr_with_history : ConversationManager :=
  { max_context_turns := 10, session_timeout := 1800,
    current_context := none, conversation_history := [("old", ctx_old)] }

/-- Manager state with a current session that has no turns yet (as right
after `start_conversation`), used by the `get_contextual_response`
counterexample. -/
def mgr_fresh_session : ConversationManager :=
  { max_context_turns := 10, session_timeout := 1800,
    current_context := some { session_id := "s", started_at := 100,
                              last_interaction := 100, turns := [] },
    conversation_history := [("s", { session_id := "s", started_at := 100,
                                     last_interaction := 100, turns := [] })] }

/-- Manager state whose current session already has one turn, used by the
contextual-response witness. -/
def mgr_with_turn : ConversationManager :=
  { max_context_turns := 10, session_timeout := 1800,
    current_context := some { session_id := "s", started_at := 90,
                              last_interaction := 95,
                              turns := [{ timestamp := 95, user_input := "w",
                                          intent_plugin := "weather", intent_confidence := 1,
                                          entities := {}, sarah_response := "r",
                                          execution_successful := true }] },
    conversation_history := [] }

/-- The turn record `add_turn` builds from an argument tuple
`(now, user_input, plugin, confidence, entities, response, success)`. -/
def turn_of_tuple (a : Nat × String × String × ℚ × Entities × String × Bool) :
    ConversationTurn :=
  { timestamp := a.1, user_input := a.2.1, intent_plugin := a.2.2.1,
    intent_confidence := a.2.2.2.1, entities := a.2.2.2.2.1,
    sarah_response := a.2.2.2.2.2.1, execution_successful := a.2.2.2.2.2.2 }

/-- `add_turn` applied to an argument tuple (random index fixed to 0), for
iterating a sequence of calls. -/
def add_turn_tuple (mgr : ConversationManager)
    (a : Nat × String × String × ℚ × Entities × String × Bool) : ConversationManager :=
  add_turn mgr a.1 a.2.1 a.2.2.1 a.2.2.2.1 a.2.2.2.2.1 a.2.2.2.2.2.1 a.2.2.2.2.2.2 0

section BestScanLemmas

variable {α : Type} (score : α → ℚ) (name : α → String)

theorem run_max_nil (b : ℚ) : run_max score [] b = b := rfl

theorem run_max_cons (x : α) (l : List α) (b : ℚ) :
    run_max score (x :: l) b = max (score x) (run_max score l b) := rfl

theorem le_run_max (l : List α) (b : ℚ) : b ≤ run_max score l b := by
  induction l with
  | nil => exact le_refl b
  | cons x xs ih => exact le_trans ih (le_max_right _ _)

theorem run_max_init (l : List α) (a b : ℚ) :
    run_max score l (max a b) = max a (run_max score l b) := by
  induction l with
  | nil => rfl
  | cons x xs ih =>
    rw [run_max_cons, ih, run_max_cons, max_left_comm]

theorem run_max_mem_or (l : List α) (b : ℚ) :
    run_max score l b = b ∨ ∃ x ∈ l, score x = run_max score l b := by
  induction l with
  | nil => exact Or.inl rfl
  | cons x xs ih =>
    rw [run_max_cons]
    rcases le_total (score x) (run_max score xs b) with h | h
    · rw [max_eq_right h]
      rcases ih with h2 | ⟨y, hy, hys⟩
      · exact Or.inl h2
      · exact Or.inr ⟨y, List.mem_cons_of_mem x hy, hys⟩
    · rw [max_eq_left h]
      exact Or.inr ⟨x, List.mem_cons_self x xs, rfl⟩

theorem run_max_all_le (l : List α) (b : ℚ) (h : ∀ x ∈ l, score x ≤ b) :
    run_max score l b = b := by
  induction l with
  | nil => rfl
  | cons x xs ih =>
    rw [run_max_cons, ih (fun y hy => h y (List.mem_cons_of_mem x hy)),
        max_eq_right (h x (List.mem_cons_self x xs))]

theorem best_scan_cons (x : α) (xs : List α) (b : String × ℚ) :
    best_scan score name (x :: xs) b =
      best_scan score name xs (if score x > b.2 then (name x, score x) else b) := rfl

theorem best_scan_eq (l : List α) (b : String × ℚ) :
    best_scan score name l b =
      if b.2 < run_max score l b.2 then
        (((l.find? (fun x => decide (score x = run_max score l b.2))).map name).getD b.1,
         run_max score l b.2)
      else b := by
  induction l generalizing b with
  | nil =>
    rw [run_max_nil, if_neg (lt_irrefl b.2)]
    rfl
  | cons x xs ih =>
    rw [best_scan_cons, run_max_cons]
    by_cases hxb : score x > b.2
    · rw [if_pos hxb, ih]
      have hmax : max (score x) b.2 = score x := max_eq_left (le_of_lt hxb)
      have hM : run_max score xs (score x) = max (score x) (run_max score xs b.2) := by
        rw [← hmax, run_max_init, max_assoc, max_eq_right (le_run_max score xs b.2)]
      have hble : b.2 < run_max score xs (score x) :=
        lt_of_lt_of_le hxb (le_run_max score xs (score x))
      rw [hM] at hble ⊢
      rw [if_pos hble]
      by_cases hxM : score x < max (score x) (run_max score xs b.2)
      · rw [if_pos hxM]
        have hpx : ¬((fun y => decide (score y = max (score x) (run_max score xs b.2))) x = true) := by
          simp only [decide_eq_true_eq]
          exact ne_of_lt hxM
        rw [List.find?_cons_of_neg xs hpx]
        rcases run_max_mem_or score xs (score x) with h2 | ⟨y, hy, hys⟩
        · rw [hM] at h2
          exact absurd h2.symm (ne_of_lt hxM)
        · rw [hM] at hys
          obtain ⟨v, hv⟩ : ∃ v, xs.find?
              (fun y => decide (score y = max (score x) (run_max score xs b.2))) = some v := by
            rw [← Option.isSome_iff_exists, List.find?_isSome]
            exact ⟨y, hy, by simp [hys]⟩
          rw [hv]
          rfl
      · rw [if_neg hxM]
        have hle : score x ≤ max (score x) (run_max score xs b.2) := le_max_left _ _
        have hMx : max (score x) (run_max score xs b.2) = score x :=
          le_antisymm (not_lt.mp hxM) hle
        have hpx : (fun y => decide (score y = max (score x) (run_max score xs b.2))) x = true := by
          simp [hMx]
        rw [List.find?_cons_of_pos xs hpx]
        simp [hMx]
    · rw [if_neg hxb, ih]
      have hxble : score x ≤ b.2 := not_lt.mp hxb
      have hMM : max (score x) (run_max score xs b.2) = run_max score xs b.2 :=
        max_eq_right (le_trans hxble (le_run_max score xs b.2))
      rw [hMM]
      by_cases hbM : b.2 < run_max score xs b.2
      · rw [if_pos hbM, if_pos hbM]
        have hpx : ¬((fun y => decide (score y = run_max score xs b.2)) x = true) := by
          simp only [decide_eq_true_eq]
          exact ne_of_lt (lt_of_le_of_lt hxble hbM)
        rw [List.find?_cons_of_neg xs hpx]
      · rw [if_neg hbM, if_neg hbM]

theorem best_scan_spec (l : List α) :
    best_scan score name l ("hi", 0) = spec_best score name l := by
  rw [best_scan_eq, spec_best]

theorem best_scan_nonneg (l : List α) : 0 ≤ (best_scan score name l ("hi", 0)).2 := by
  rw [best_scan_eq]
  by_cases h : (0 : ℚ) < run_max score l 0
  · simp only [if_pos h]
    exact le_of_lt h
  · simp only [if_neg h]
    exact le_refl 0

theorem best_scan_all_nonpos (l : List α) (h : ∀ x ∈ l, score x ≤ 0) :
    best_scan score name l ("hi", 0) = ("hi", 0) := by
  rw [best_scan_eq, run_max_all_le score l 0 h, if_neg (lt_irrefl (0 : ℚ))]

theorem find_best_plugin_match_eq_scan (sim : String → ℚ) (names : List String) :
    find_best_plugin_match sim names = best_scan sim id names ("hi", 0) := rfl

theorem keyword_based_matching_eq_scan (plugins : List PluginInfo) (text : String) :
    keyword_based_matching plugins text =
      best_scan (keyword_score text) PluginInfo.name plugins ("hi", 0) := rfl

end BestScanLemmas

set_option maxRecDepth 10000

theorem best_scan_nil {α : Type} (score : α → ℚ) (name : α → String) (b : String × ℚ) :
    best_scan score name [] b = b := rfl

theorem run_max_le_of_mem {α : Type} (score : α → ℚ) {l : List α} {x : α}
    (hx : x ∈ l) (b : ℚ) : score x ≤ run_max score l b := by
  induction l with
  | nil => cases hx
  | cons y ys ih =>
    rw [run_max_cons]
    rcases List.mem_cons.mp hx with rfl | hmem
    · exact le_max_left _ _
    · exact le_trans (ih hmem) (le_max_right _ _)

theorem run_max_le_bound {α : Type} (score : α → ℚ) {l : List α} {b c : ℚ}
    (hb : b ≤ c) (h : ∀ x ∈ l, score x ≤ c) : run_max score l b ≤ c := by
  induction l with
  | nil => exact hb
  | cons y ys ih =>
    rw [run_max_cons]
    exact max_le (h y (List.mem_cons_self y ys))
      (ih (fun x hx => h x (List.mem_cons_of_mem y hx)))

theorem drop_while_all (p : Char → Bool) (l : List Char) (h : ∀ c ∈ l, p c = true) :
    l.dropWhile p = [] := by
  induction l with
  | nil => rfl
  | cons c cs ih =>
    rw [List.dropWhile_cons_of_pos (h c (List.mem_cons_self c cs))]
    exact ih (fun d hd => h d (List.mem_cons_of_mem c hd))

theorem clean_input_all_space (s : String) (h : ∀ c ∈ s.toList, is_space c = true) :
    clean_input s = "" := by
  unfold clean_input strip_ws
  rw [drop_while_all is_space s.toList h]
  rfl

theorem understand_keyword_fields (em : ExtractMode) (plugins : List PluginInfo)
    (input : String) :
    ((understand_input em .keyword plugins input).plugin_name,
     (understand_input em .keyword plugins input).confidence)
      = keyword_based_matching plugins (clean_input input) := rfl

theorem understand_embedding_fields (em : ExtractMode) (sim : String → String → ℚ)
    (plugins : List PluginInfo) (input : String) :
    ((understand_input em (.embedding sim) plugins input).plugin_name,
     (understand_input em (.embedding sim) plugins input).confidence)
      = find_best_plugin_match (sim (clean_input input)) (plugins.map PluginInfo.name) := rfl

theorem keyword_score_zero (text : String) (p : PluginInfo)
    (h : p.keywords.countP (fun k => contains_sub k text) = 0) :
    keyword_score text p = 0 := by
  unfold keyword_score
  split
  · rfl
  · rw [h]
    norm_num

theorem keyword_score_one (text : String) (p : PluginInfo) (hne : p.keywords ≠ [])
    (h : ∀ k ∈ p.keywords, contains_sub k text = true) :
    keyword_score text p = 1 := by
  unfold keyword_score
  rw [if_neg hne, List.countP_eq_length.mpr h]
  have hlen : (p.keywords.length : ℚ) ≠ 0 :=
    Nat.cast_ne_zero.mpr (fun hh => hne (List.length_eq_zero.mp hh))
  exact div_self hlen

theorem keyword_matching_empty_text :
    keyword_based_matching sarah_plugins "" = ("hi", 0) := by
  rw [keyword_based_matching_eq_scan]
  apply best_scan_all_nonpos
  intro p hp
  have hall : ∀ q ∈ sarah_plugins, q.keywords.countP (fun k => contains_sub k "") = 0 := by
    decide
  exact le_of_eq (keyword_score_zero "" p (hall p hp))

/-- C2 (amended).  For the empty utterance and every whitespace-only
utterance, `understand_input` returns the Intent `('hi', 0.0)` with empty
entities and the original text, in keyword-fallback matching mode (under
both entity extractors, the spaCy one assumed to produce an empty document
for the empty text); in embedding mode the same holds provided every
plugin's similarity to the cleaned (empty) utterance is at most 0.  The
claim as frozen asserts the `('hi', 0.0)` result unconditionally in
embedding mode, which the code does not guarantee (see the counterexample);
resolution itself is a total function, so it never raises. -/
theorem C2_empty_input_default (s : String) (hs : ∀ c ∈ s.toList, is_space c = true) :
    (understand_input .fallback .keyword sarah_plugins s
        = { plugin_name := "hi", confidence := 0, entities := empty_entities, raw_text := s })
    ∧ (∀ nlp : String → SpacyDoc, (nlp "").ents = [] → (nlp "").tokens = [] →
        understand_input (.spacy nlp) .keyword sarah_plugins s
          = { plugin_name := "hi", confidence := 0, entities := empty_entities, raw_text := s })
    ∧ (∀ sim : String → String → ℚ, (∀ p ∈ plugin_names, sim (clean_input s) p ≤ 0) →
        understand_input .fallback (.embedding sim) sarah_plugins s
          = { plugin_name := "hi", confidence := 0, entities := empty_entities, raw_text := s }) := by
  have hc : clean_input s = "" := clean_input_all_space s hs
  have hext : extract_entities .fallback "" = empty_entities := by decide
  refine ⟨?_, ?_, ?_⟩
  · have h1 : understand_input .fallback .keyword sarah_plugins s
        = { plugin_name := (keyword_based_matching sarah_plugins (clean_input s)).1,
            confidence := (keyword_based_matching sarah_plugins (clean_input s)).2,
            entities := extract_entities .fallback (clean_input s), raw_text := s } := rfl
    rw [h1, hc, keyword_matching_empty_text, hext]
  · intro nlp hents htoks
    have h2 : understand_input (.spacy nlp) .keyword sarah_plugins s
        = { plugin_name := (keyword_based_matching sarah_plugins (clean_input s)).1,
            confidence := (keyword_based_matching sarah_plugins (clean_input s)).2,
            entities := extract_entities (.spacy nlp) (clean_input s), raw_text := s } := rfl
    have hdoc : nlp "" = { ents := [], tokens := [] } := by
      rw [← hents, ← htoks]
    have hsp : extract_entities (.spacy nlp) "" = empty_entities := by
      show spacy_entities (nlp "") = empty_entities
      rw [hdoc]
      decide
    rw [h2, hc, keyword_matching_empty_text, hsp]
  · intro sim hsim
    have h3 : understand_input .fallback (.embedding sim) sarah_plugins s
        = { plugin_name := (find_best_plugin_match (sim (clean_input s)) plugin_names).1,
            confidence := (find_best_plugin_match (sim (clean_input s)) plugin_names).2,
            entities := extract_entities .fallback (clean_input s), raw_text := s } := rfl
    have hfb : find_best_plugin_match (sim (clean_input s)) plugin_names = ("hi", 0) := by
      rw [find_best_plugin_match_eq_scan]
      exact best_scan_all_nonpos _ _ _ hsim
    rw [h3, hfb, hc, hext]

/-- Witness for C2 at the concrete whitespace-only input `"   "`, with a
concrete empty-document pipeline and a concrete nonpositive similarity. -/
theorem C2_empty_input_default_witness :
    understand_input .fallback .keyword sarah_plugins "   "
        = { plugin_name := "hi", confidence := 0, entities := empty_entities, raw_text := "   " }
    ∧ understand_input (.spacy (fun _ => { ents := [], tokens := [] })) .keyword sarah_plugins "   "
        = { plugin_name := "hi", confidence := 0, entities := empty_entities, raw_text := "   " }
    ∧ understand_input .fallback (.embedding (fun _ _ => -1)) sarah_plugins "   "
        = { plugin_name := "hi", confidence := 0, entities := empty_entities, raw_text := "   " } :=
  ⟨(C2_empty_input_default "   " (by decide)).1,
   (C2_empty_input_default "   " (by decide)).2.1 (fun _ => { ents := [], tokens := [] }) rfl rfl,
   (C2_empty_input_default "   " (by decide)).2.2 (fun _ _ => -1) (fun p _ => by norm_num)⟩

/-- Counterexample to C2 as frozen: in embedding mode the result for the
empty utterance is whatever the similarity maximum dictates, not the default
`('hi', 0.0)` — with an (admissible, external) encoder whose empty-utterance
embedding has cosine similarity 1 to the `weather` embedding and 0 to every
other, resolution returns `('weather', 1.0)`. -/
theorem C2_counterexample :
    (understand_input .fallback
        (.embedding (fun _ p => if p = "weather" then 1 else 0)) sarah_plugins "").plugin_name
      = "weather"
    ∧ (understand_input .fallback
        (.embedding (fun _ p => if p = "weather" then 1 else 0)) sarah_plugins "").confidence
      = 1 := by
  constructor <;> decide

/-- C3 (amended).  In embedding mode, resolution refines `spec_best`: when
the maximum cosine similarity over the catalog is strictly positive,
the earliest catalog action attaining that maximum is selected, with the
maximum as confidence; when no similarity is strictly positive the default
`('hi', 0.0)` is returned instead of a maximum-similarity action (the
frozen claim asserts the maximum-similarity selection unconditionally,
which fails for nonpositive maxima — see the counterexample). -/
theorem C3_embedding_argmax (sim : String → String → ℚ) (input : String) :
    (understand_input .fallback (.embedding sim) sarah_plugins input).plugin_name
        = (spec_best (sim (clean_input input)) id plugin_names).1
    ∧ (understand_input .fallback (.embedding sim) sarah_plugins input).confidence
        = (spec_best (sim (clean_input input)) id plugin_names).2 := by
  have h : find_best_plugin_match (sim (clean_input input)) plugin_names
      = spec_best (sim (clean_input input)) id plugin_names := by
    rw [find_best_plugin_match_eq_scan, best_scan_spec]
  constructor
  · show (find_best_plugin_match (sim (clean_input input)) plugin_names).1 = _
    rw [h]
  · show (find_best_plugin_match (sim (clean_input input)) plugin_names).2 = _
    rw [h]

/-- Counterexample to C3 as frozen: with an encoder giving similarity −1 to
`weather` and −2 to every other plugin, the unique maximum-similarity action
is `weather`, yet resolution returns the default `('hi', 0.0)` (the
accumulator starts at confidence 0.0 and is never beaten). -/
theorem C3_counterexample :
    (understand_input .fallback
        (.embedding (fun _ p => if p = "weather" then -1 else -2)) sarah_plugins "check").plugin_name
      = "hi"
    ∧ (understand_input .fallback
        (.embedding (fun _ p => if p = "weather" then -1 else -2)) sarah_plugins "check").confidence
      = 0
    ∧ ((fun p => if p = "weather" then (-1 : ℚ) else -2) "hi"
        < (fun p => if p = "weather" then (-1 : ℚ) else -2) "weather")
    ∧ "weather" ∈ plugin_names ∧ "hi" ∈ plugin_names := by
  refine ⟨by decide, by decide, ?_, by decide, by decide⟩
  show (if "hi" = "weather" then (-1 : ℚ) else -2) < (if "weather" = "weather" then (-1 : ℚ) else -2)
  rw [if_neg (by decide : ¬("hi" = "weather")), if_pos rfl]
  norm_num

/-- C10 (confirmed).  In embedding mode the returned confidence is never
negative, and whenever every plugin similarity to the cleaned utterance is
at most 0, resolution returns exactly the default `('hi', 0.0)`. -/
theorem C10_nonneg_confidence (sim : String → String → ℚ) (input : String) :
    0 ≤ (understand_input .fallback (.embedding sim) sarah_plugins input).confidence
    ∧ ((∀ p ∈ plugin_names, sim (clean_input input) p ≤ 0) →
        (understand_input .fallback (.embedding sim) sarah_plugins input).plugin_name = "hi"
        ∧ (understand_input .fallback (.embedding sim) sarah_plugins input).confidence = 0) := by
  constructor
  · show 0 ≤ (find_best_plugin_match (sim (clean_input input)) plugin_names).2
    rw [find_best_plugin_match_eq_scan]
    exact best_scan_nonneg _ _ _
  · intro h
    have hz : find_best_plugin_match (sim (clean_input input)) plugin_names = ("hi", 0) := by
      rw [find_best_plugin_match_eq_scan]
      exact best_scan_all_nonpos _ _ _ h
    constructor
    · show (find_best_plugin_match (sim (clean_input input)) plugin_names).1 = "hi"
      rw [hz]
    · show (find_best_plugin_match (sim (clean_input input)) plugin_names).2 = 0
      rw [hz]

/-- Witness for C10 at a concrete all-negative similarity. -/
theorem C10_nonneg_confidence_witness :
    (understand_input .fallback (.embedding (fun _ _ => (-1 : ℚ))) sarah_plugins "x").plugin_name
      = "hi"
    ∧ (understand_input .fallback (.embedding (fun _ _ => (-1 : ℚ))) sarah_plugins "x").confidence
      = 0 :=
  (C10_nonneg_confidence (fun _ _ => (-1 : ℚ)) "x").2 (fun p _ => by norm_num)

/-- C4 (amended).  Keyword-fallback matching refines `spec_best` for the
keyword-ratio score (count of keywords occurring as substrings divided by
the number of keywords, 0 for no keywords): when some action scores
strictly positively the earliest maximum-scoring action is selected;
when every action scores 0 the default `('hi', 0.0)` is returned instead
of the catalog-order tie-break the frozen claim asserts (see the
counterexample).  An utterance containing all keywords of exactly one
action and none of any other resolves to that action with confidence 1.0,
and on the two-action example catalog the input
`"what's the weather forecast for today"` resolves to `weather` with
confidence 0.5. -/
theorem C4_keyword_matching :
    (∀ (plugins : List PluginInfo) (text : String),
        keyword_based_matching plugins text
          = spec_best (keyword_score text) PluginInfo.name plugins)
    ∧ (∀ (plugins : List PluginInfo) (text : String) (p : PluginInfo),
        p ∈ plugins → p.keywords ≠ [] →
        (∀ k ∈ p.keywords, contains_sub k text = true) →
        (∀ q ∈ plugins, q ≠ p → ∀ k ∈ q.keywords, contains_sub k text = false) →
        keyword_based_matching plugins text = (p.name, 1))
    ∧ (understand_input .fallback .keyword example_catalog
          "what\x27s the weather forecast for today").plugin_name = "weather"
    ∧ (understand_input .fallback .keyword example_catalog
          "what\x27s the weather forecast for today").confidence = 1 / 2 := by
  have hrefine : ∀ (plugins : List PluginInfo) (text : String),
      keyword_based_matching plugins text
        = spec_best (keyword_score text) PluginInfo.name plugins := by
    intro plugins text
    rw [keyword_based_matching_eq_scan, best_scan_spec]
  have hunique : ∀ (plugins : List PluginInfo) (text : String) (p : PluginInfo),
      p ∈ plugins → p.keywords ≠ [] →
      (∀ k ∈ p.keywords, contains_sub k text = true) →
      (∀ q ∈ plugins, q ≠ p → ∀ k ∈ q.keywords, contains_sub k text = false) →
      keyword_based_matching plugins text = (p.name, 1) := by
    intro plugins text p hp hne hall hothers
    have hsp : keyword_score text p = 1 := keyword_score_one text p hne hall
    have hso : ∀ q ∈ plugins, q ≠ p → keyword_score text q = 0 := by
      intro q hq hqp
      apply keyword_score_zero
      rw [List.countP_eq_zero]
      intro k hk
      simp [hothers q hq hqp k hk]
    have hb : ∀ x ∈ plugins, keyword_score text x ≤ 1 := by
      intro x hx
      by_cases hxp : x = p
      · rw [hxp, hsp]
      · rw [hso x hx hxp]
        norm_num
    have hM : run_max (keyword_score text) plugins 0 = 1 := by
      apply le_antisymm
      · exact run_max_le_bound _ (by norm_num) hb
      · rw [← hsp]
        exact run_max_le_of_mem _ hp 0
    rw [hrefine]
    simp only [spec_best]
    rw [hM, if_pos (by norm_num : (0:ℚ) < 1)]
    obtain ⟨v, hv⟩ : ∃ v, plugins.find? (fun x => decide (keyword_score text x = 1)) = some v := by
      rw [← Option.isSome_iff_exists, List.find?_isSome]
      exact ⟨p, hp, by simp [hsp]⟩
    have hvp : v = p := by
      by_contra hne2
      have hvm : v ∈ plugins := List.mem_of_find?_eq_some hv
      have hv1 : keyword_score text v = 1 := by
        have := List.find?_some hv
        simpa using this
      rw [hso v hvm hne2] at hv1
      norm_num at hv1
    rw [hv, hvp]
    rfl
  have hct : clean_input "what\x27s the weather forecast for today"
      = "what\x27s the weather forecast for today" := by decide
  have hw : keyword_score "what\x27s the weather forecast for today" example_weather = 1/2 := by
    have h2 : example_weather.keywords.countP
        (fun k => contains_sub k "what\x27s the weather forecast for today") = 2 := by decide
    unfold keyword_score
    rw [if_neg (by decide : ¬(example_weather.keywords = [])), h2,
        show example_weather.keywords.length = 4 from by decide]
    norm_num
  have ht : keyword_score "what\x27s the weather forecast for today" example_time = 0 :=
    keyword_score_zero _ _ (by decide)
  have hm : keyword_based_matching example_catalog "what\x27s the weather forecast for today"
      = ("weather", 1/2) := by
    rw [keyword_based_matching_eq_scan, example_catalog, best_scan_cons, best_scan_cons,
        best_scan_nil, hw, ht]
    rw [if_pos (show (1:ℚ)/2 > ("hi", (0:ℚ)).2 from by norm_num)]
    rw [if_neg (show ¬((0:ℚ) > (example_weather.name, (1:ℚ)/2).2) from by norm_num)]
    rfl
  have hfields := understand_keyword_fields .fallback example_catalog
      "what\x27s the weather forecast for today"
  rw [hct, hm] at hfields
  exact ⟨hrefine, hunique, congrArg Prod.fst hfields, congrArg Prod.snd hfields⟩

/-- Counterexample to C4 as frozen: on the utterance `"zzz"` every catalog
action scores 0, so the maximum score is attained by every action and the
claimed catalog-order tie-break would select `weather` (the first catalog
entry); the code instead returns the default `('hi', 0.0)`. -/
theorem C4_counterexample :
    (understand_input .fallback .keyword sarah_plugins "zzz").plugin_name = "hi"
    ∧ (understand_input .fallback .keyword sarah_plugins "zzz").confidence = 0
    ∧ sarah_plugins.map (fun p => keyword_score (clean_input "zzz") p) = List.replicate 12 0
    ∧ plugin_names.head? = some "weather" := by
  have hall : ∀ q ∈ sarah_plugins,
      q.keywords.countP (fun k => contains_sub k (clean_input "zzz")) = 0 := by decide
  have hz : ∀ q ∈ sarah_plugins, keyword_score (clean_input "zzz") q = 0 :=
    fun q hq => keyword_score_zero _ q (hall q hq)
  have hm : keyword_based_matching sarah_plugins (clean_input "zzz") = ("hi", 0) := by
    rw [keyword_based_matching_eq_scan]
    exact best_scan_all_nonpos _ _ _ (fun q hq => le_of_eq (hz q hq))
  have hfields := understand_keyword_fields .fallback sarah_plugins "zzz"
  rw [hm] at hfields
  refine ⟨congrArg Prod.fst hfields, congrArg Prod.snd hfields, ?_, by decide⟩
  rw [List.eq_replicate_iff]
  refine ⟨by rw [List.length_map]; decide, ?_⟩
  intro b hb
  obtain ⟨q, hq, rfl⟩ := List.mem_map.mp hb
  exact hz q hq

theorem update_active_topic_turns (c : ConversationContext) (ip : String) (ents : Entities) :
    (update_active_topic c ip ents).turns = c.turns := by
  unfold update_active_topic
  split
  · rfl
  · split <;> rfl

theorem update_active_topic_session_id (c : ConversationContext) (ip : String) (ents : Entities) :
    (update_active_topic c ip ents).session_id = c.session_id := by
  unfold update_active_topic
  split
  · rfl
  · split <;> rfl

theorem update_active_topic_last_interaction (c : ConversationContext) (ip : String)
    (ents : Entities) :
    (update_active_topic c ip ents).last_interaction = c.last_interaction := by
  unfold update_active_topic
  split
  · rfl
  · split <;> rfl

theorem update_user_preferences_turns (c : ConversationContext) (ents : Entities)
    (ip : String) : (update_user_preferences c ents ip).turns = c.turns := by
  unfold update_user_preferences
  split <;> rfl

theorem update_user_preferences_session_id (c : ConversationContext) (ents : Entities)
    (ip : String) : (update_user_preferences c ents ip).session_id = c.session_id := by
  unfold update_user_preferences
  split <;> rfl

theorem update_user_preferences_last_interaction (c : ConversationContext) (ents : Entities)
    (ip : String) : (update_user_preferences c ents ip).last_interaction = c.last_interaction := by
  unfold update_user_preferences
  split <;> rfl

theorem trim_turns_length (maxT : Nat) (l : List ConversationTurn) (h1 : 1 ≤ maxT) :
    (trim_turns maxT l).length ≤ maxT := by
  unfold trim_turns
  by_cases h : l.length > maxT
  · rw [if_pos h, if_neg (by omega : ¬(maxT = 0)), List.length_drop]
    omega
  · rw [if_neg h]
    omega

theorem trim_turns_snoc (maxT : Nat) (ts : List ConversationTurn) (t : ConversationTurn)
    (h1 : 1 ≤ maxT) :
    trim_turns maxT (ts ++ [t]) = (ts ++ [t]).drop ((ts ++ [t]).length - maxT) := by
  unfold trim_turns
  by_cases h : (ts ++ [t]).length > maxT
  · rw [if_pos h, if_neg (by omega : ¬(maxT = 0))]
  · rw [if_neg h]
    have hz : (ts ++ [t]).length - maxT = 0 := by omega
    rw [hz, List.drop_zero]

theorem add_turn_core_current (mgr : ConversationManager) (c : ConversationContext)
    (h : mgr.current_context = some c) (now : Nat) (ui ip : String) (conf : ℚ)
    (ents : Entities) (resp : String) (succ : Bool) :
    ∃ c2, (add_turn_core mgr now ui ip conf ents resp succ).current_context = some c2
      ∧ c2.turns = trim_turns mgr.max_context_turns
          (c.turns ++ [{ timestamp := now, user_input := ui, intent_plugin := ip,
                         intent_confidence := conf, entities := ents, sarah_response := resp,
                         execution_successful := succ }])
      ∧ c2.session_id = c.session_id
      ∧ c2.last_interaction = now := by
  unfold add_turn_core
  rw [h]
  refine ⟨_, rfl, ?_, ?_, ?_⟩
  · simp only [update_user_preferences_turns, update_active_topic_turns]
  · simp only [update_user_preferences_session_id, update_active_topic_session_id]
  · simp only [update_user_preferences_last_interaction, update_active_topic_last_interaction]

theorem add_turn_core_max (mgr : ConversationManager) (now : Nat) (ui ip : String)
    (conf : ℚ) (ents : Entities) (resp : String) (succ : Bool) :
    (add_turn_core mgr now ui ip conf ents resp succ).max_context_turns
      = mgr.max_context_turns := by
  unfold add_turn_core
  cases hcc : mgr.current_context <;> rfl

theorem add_turn_of_some (mgr : ConversationManager) (c : ConversationContext)
    (h : mgr.current_context = some c) (now : Nat) (ui ip : String) (conf : ℚ)
    (ents : Entities) (resp : String) (succ : Bool) (g : Nat) :
    add_turn mgr now ui ip conf ents resp succ g
      = add_turn_core mgr now ui ip conf ents resp succ := by
  unfold add_turn
  rw [h]
  rfl

theorem start_conversation_current (mgr : ConversationManager) (now : Nat)
    (sid : Option String) (g : Nat) :
    (start_conversation mgr now sid g).1.current_context
      = some { session_id := sid.getD ("session_" ++ toString now), started_at := now,
               last_interaction := now, turns := [], user_preferences := {} } := rfl

theorem start_conversation_max (mgr : ConversationManager) (now : Nat)
    (sid : Option String) (g : Nat) :
    (start_conversation mgr now sid g).1.max_context_turns = mgr.max_context_turns := rfl

theorem fold_trim_drop (maxT : Nat) (h1 : 1 ≤ maxT)
    (args : List (Nat × String × String × ℚ × Entities × String × Bool)) :
    ∀ ts : List ConversationTurn, ts.length ≤ maxT →
      args.foldl (fun acc a => trim_turns maxT (acc ++ [turn_of_tuple a])) ts
        = (ts ++ args.map turn_of_tuple).drop ((ts ++ args.map turn_of_tuple).length - maxT) := by
  induction args with
  | nil =>
    intro ts hts
    simp only [List.foldl_nil, List.map_nil, List.append_nil]
    have hz : ts.length - maxT = 0 := by omega
    rw [hz, List.drop_zero]
  | cons a as ih =>
    intro ts hts
    rw [List.foldl_cons, trim_turns_snoc maxT ts (turn_of_tuple a) h1]
    have hlen : ((ts ++ [turn_of_tuple a]).drop ((ts ++ [turn_of_tuple a]).length - maxT)).length
        ≤ maxT := by
      rw [List.length_drop]
      omega
    rw [ih _ hlen]
    have hsplit : ((ts ++ [turn_of_tuple a]) ++ as.map turn_of_tuple).drop
            ((ts ++ [turn_of_tuple a]).length - maxT)
        = (ts ++ [turn_of_tuple a]).drop ((ts ++ [turn_of_tuple a]).length - maxT)
          ++ as.map turn_of_tuple := by
      conv_lhs => rw [List.drop_append_eq_append_drop]
      have hz : (ts ++ [turn_of_tuple a]).length - maxT - (ts ++ [turn_of_tuple a]).length = 0 := by
        omega
      rw [hz, List.drop_zero]
    have hassoc : ts ++ (a :: as).map turn_of_tuple
        = (ts ++ [turn_of_tuple a]) ++ as.map turn_of_tuple := by
      rw [List.map_cons, List.append_cons]
    rw [hassoc, ← hsplit, List.drop_drop]
    congr 1
    simp only [List.length_drop, List.length_append, List.length_cons, List.length_nil]
    omega

theorem create_conversation_manager_max (a b : Nat) :
    (create_conversation_manager a b).max_context_turns = a := rfl

theorem fold_add_turn_turns
    (args : List (Nat × String × String × ℚ × Entities × String × Bool)) :
    ∀ (mgr : ConversationManager) (c : ConversationContext),
      mgr.current_context = some c →
      ∃ c2, (args.foldl add_turn_tuple mgr).current_context = some c2
        ∧ c2.turns = args.foldl
            (fun acc a => trim_turns mgr.max_context_turns (acc ++ [turn_of_tuple a]))
            c.turns := by
  induction args with
  | nil =>
    intro mgr c h
    exact ⟨c, h, rfl⟩
  | cons a as ih =>
    intro mgr c h
    rw [List.foldl_cons, List.foldl_cons]
    have hstep : add_turn_tuple mgr a
        = add_turn_core mgr a.1 a.2.1 a.2.2.1 a.2.2.2.1 a.2.2.2.2.1
            a.2.2.2.2.2.1 a.2.2.2.2.2.2 := by
      unfold add_turn_tuple
      exact add_turn_of_some mgr c h _ _ _ _ _ _ _ _
    obtain ⟨c1, hc1, hturns1, hsid1, hlast1⟩ :=
      add_turn_core_current mgr c h a.1 a.2.1 a.2.2.1 a.2.2.2.1 a.2.2.2.2.1
        a.2.2.2.2.2.1 a.2.2.2.2.2.2
    rw [hstep]
    obtain ⟨c2, hc2, hturns2⟩ := ih _ c1 hc1
    refine ⟨c2, hc2, ?_⟩
    rw [hturns2, add_turn_core_max, hturns1]
    rfl

/-- C6 (amended).  Provided `max_context_turns ≥ 1`, the current context
holds at most `max_context_turns` turns after any `add_turn` call (from any
manager state), and starting from a fresh session, after any sequence of
`add_turn` calls exactly the `max_context_turns` most recently added turns
remain, oldest-first (for `n` calls, the last `min n max_context_turns`).
The frozen claim holds for every configuration except
`max_context_turns = 0`, where the Python slice `turns[-0:]` is the whole
list and nothing is ever trimmed — see the counterexample. -/
theorem C6_turn_trimming :
    (∀ (mgr : ConversationManager) (now : Nat) (ui ip : String) (conf : ℚ)
        (ents : Entities) (resp : String) (succ : Bool) (g : Nat)
        (c2 : ConversationContext),
        1 ≤ mgr.max_context_turns →
        (add_turn mgr now ui ip conf ents resp succ g).current_context = some c2 →
        c2.turns.length ≤ mgr.max_context_turns)
    ∧ (∀ (maxT stm now : Nat) (sid : Option String) (g : Nat)
        (args : List (Nat × String × String × ℚ × Entities × String × Bool))
        (c2 : ConversationContext),
        1 ≤ maxT →
        (args.foldl add_turn_tuple
            (start_conversation (create_conversation_manager maxT stm) now sid g).1).current_context
          = some c2 →
        c2.turns = (args.map turn_of_tuple).drop (args.length - maxT)) := by
  constructor
  · intro mgr now ui ip conf ents resp succ g c2 hmax hsome
    cases hcc : mgr.current_context with
    | none =>
      have hadd : add_turn mgr now ui ip conf ents resp succ g
          = add_turn_core ((start_conversation mgr now none g).1) now ui ip conf ents resp succ := by
        unfold add_turn
        rw [hcc]
        rfl
      rw [hadd] at hsome
      obtain ⟨c1, hc1, hturns1, hsid1, hlast1⟩ :=
        add_turn_core_current _ _ (start_conversation_current mgr now none g)
          now ui ip conf ents resp succ
      rw [hc1] at hsome
      obtain rfl : c1 = c2 := Option.some.inj hsome
      rw [hturns1, start_conversation_max]
      exact trim_turns_length _ _ hmax
    | some c =>
      rw [add_turn_of_some mgr c hcc] at hsome
      obtain ⟨c1, hc1, hturns1, hsid1, hlast1⟩ :=
        add_turn_core_current mgr c hcc now ui ip conf ents resp succ
      rw [hc1] at hsome
      obtain rfl : c1 = c2 := Option.some.inj hsome
      rw [hturns1]
      exact trim_turns_length _ _ hmax
  · intro maxT stm now sid g args c2 hmax hsome
    obtain ⟨c2', hc2', hturns⟩ := fold_add_turn_turns args _ _
      (start_conversation_current (create_conversation_manager maxT stm) now sid g)
    rw [hc2'] at hsome
    obtain rfl : c2' = c2 := Option.some.inj hsome
    rw [hturns, start_conversation_max, create_conversation_manager_max]
    rw [fold_trim_drop maxT hmax args [] (by simp)]
    simp only [List.nil_append, List.length_map]

/-- Witness for C6 at a concrete manager (`max_context_turns = 2`): one
`add_turn` keeps at most 2 turns, and three successive `add_turn` calls from
a fresh session leave exactly the 2 most recent turns, oldest-first. -/
theorem C6_turn_trimming_witness :
    (∃ c2, (add_turn (create_conversation_manager 2 30) 5 "a" "hi" 1 empty_entities
              "r" true 0).current_context = some c2
        ∧ c2.turns.length ≤ 2)
    ∧ (∃ c2, (([(6, "b", "time", 1, empty_entities, "r1", true),
                (7, "c", "time", 1, empty_entities, "r2", true),
                (8, "d", "time", 1, empty_entities, "r3", true)] :
                List (Nat × String × String × ℚ × Entities × String × Bool)).foldl
               add_turn_tuple
               (start_conversation (create_conversation_manager 2 30) 5 none 0).1).current_context
            = some c2
        ∧ c2.turns = (([(6, "b", "time", 1, empty_entities, "r1", true),
                        (7, "c", "time", 1, empty_entities, "r2", true),
                        (8, "d", "time", 1, empty_entities, "r3", true)] :
                        List (Nat × String × String × ℚ × Entities × String × Bool)).map
                       turn_of_tuple).drop (3 - 2)) := by
  constructor
  · obtain ⟨c2, hc2⟩ : ∃ c2, (add_turn (create_conversation_manager 2 30) 5 "a" "hi" 1
        empty_entities "r" true 0).current_context = some c2 := ⟨_, rfl⟩
    exact ⟨c2, hc2,
      C6_turn_trimming.1 _ 5 "a" "hi" 1 empty_entities "r" true 0 c2 (by decide) hc2⟩
  · obtain ⟨c2, hc2⟩ : ∃ c2, (([(6, "b", "time", 1, empty_entities, "r1", true),
        (7, "c", "time", 1, empty_entities, "r2", true),
        (8, "d", "time", 1, empty_entities, "r3", true)] :
        List (Nat × String × String × ℚ × Entities × String × Bool)).foldl
          add_turn_tuple
          (start_conversation (create_conversation_manager 2 30) 5 none 0).1).current_context
        = some c2 := ⟨_, rfl⟩
    exact ⟨c2, hc2, C6_turn_trimming.2 2 30 5 none 0 _ c2 (by decide) hc2⟩

/-- Counterexample to C6 as frozen: with `max_context_turns = 0` the slice
`turns[-0:]` keeps everything, so a single `add_turn` already leaves more
turns than the configured maximum. -/
theorem C6_counterexample :
    (create_conversation_manager 0 30).max_context_turns = 0
    ∧ ∃ c2, (add_turn (start_conversation (create_conversation_manager 0 30) 1 none 0).1
          2 "a" "hi" 1 empty_entities "r" true 0).current_context = some c2
      ∧ 0 < c2.turns.length := by
  refine ⟨rfl, _, rfl, by decide⟩

theorem start_conversation_history (mgr : ConversationManager) (now : Nat)
    (sid : Option String) (g : Nat) :
    (start_conversation mgr now sid g).1.conversation_history
      = (alist_set (sid.getD ("session_" ++ toString now))
           { session_id := sid.getD ("session_" ++ toString now), started_at := now,
             last_interaction := now, turns := [], user_preferences := {} }
           mgr.conversation_history).filter
          (fun e => !(e.2.last_interaction + mgr.session_timeout < now)) := rfl

theorem alist_set_mem (k : String) (v : ConversationContext)
    (l : List (String × ConversationContext)) : (k, v) ∈ alist_set k v l := by
  induction l with
  | nil => exact List.mem_singleton.mpr rfl
  | cons e es ih =>
    unfold alist_set
    by_cases he : e.1 = k
    · rw [if_pos he]
      exact List.mem_cons_self _ _
    · rw [if_neg he]
      exact List.mem_cons_of_mem _ ih

theorem map_fst_update (k : String) (c : ConversationContext)
    (l : List (String × ConversationContext)) :
    (l.map (fun e => if e.1 = k then (e.1, c) else e)).map Prod.fst = l.map Prod.fst := by
  induction l with
  | nil => rfl
  | cons e es ih =>
    simp only [List.map_cons]
    rw [ih]
    by_cases he : e.1 = k
    · rw [if_pos he]
    · rw [if_neg he]

/-- C7 (amended).  After any `start_conversation` call no context whose
`last_interaction` is older than the session timeout remains in the history
(in particular the stale context of the claim is gone), and the freshly
started session is present (never evicted by its own cleanup).  Timeout
eviction happens only inside `start_conversation`; an `add_turn` call with a
current session never changes the set of stored session keys.  The frozen
claim additionally asserts that eviction never happens during `add_turn`,
but `add_turn` with no current session implicitly calls
`start_conversation`, whose cleanup does evict — see the counterexample.
(`get_contextual_response` and `get_conversation_summary` are embedded as
pure functions of the state and so cannot evict.) -/
theorem C7_session_eviction :
    (∀ (mgr : ConversationManager) (now : Nat) (sid : Option String) (g : Nat),
        (∀ e ∈ (start_conversation mgr now sid g).1.conversation_history,
            ¬(e.2.last_interaction + mgr.session_timeout < now))
        ∧ (sid.getD ("session_" ++ toString now),
            ({ session_id := sid.getD ("session_" ++ toString now), started_at := now,
               last_interaction := now, turns := [],
               user_preferences := {} } : ConversationContext))
            ∈ (start_conversation mgr now sid g).1.conversation_history)
    ∧ (∀ (mgr : ConversationManager) (c : ConversationContext) (now : Nat) (ui ip : String)
        (conf : ℚ) (ents : Entities) (resp : String) (succ : Bool) (g : Nat),
        mgr.current_context = some c →
        (add_turn mgr now ui ip conf ents resp succ g).conversation_history.map Prod.fst
          = mgr.conversation_history.map Prod.fst) := by
  constructor
  · intro mgr now sid g
    constructor
    · intro e he
      rw [start_conversation_history] at he
      have hp := (List.mem_filter.mp he).2
      simpa using hp
    · rw [start_conversation_history, List.mem_filter]
      refine ⟨alist_set_mem _ _ _, ?_⟩
      simp only [Bool.not_eq_true', decide_eq_false_iff_not]
      omega
  · intro mgr c now ui ip conf ents resp succ g h
    rw [add_turn_of_some mgr c h]
    unfold add_turn_core
    rw [h]
    exact map_fst_update _ _ _

/-- Witness for C7: with a stale session `old` (last interaction at time 0,
timeout 1800) a `start_conversation` at time 10000 keeps only non-stale
contexts and stores the fresh session `new`; and an `add_turn` on a manager
with a current session leaves the stored key set unchanged. -/
theorem C7_session_eviction_witness :
    ¬((("new",
        ({ session_id := "new", started_at := 10000, last_interaction := 10000,
           turns := [], user_preferences := {} } : ConversationContext)) :
          String × ConversationContext).2.last_interaction
        + mgr_with_history.session_timeout < 10000)
    ∧ ("new",
        ({ session_id := "new", started_at := 10000, last_interaction := 10000,
           turns := [], user_preferences := {} } : ConversationContext))
        ∈ (start_conversation mgr_with_history 10000 (some "new") 0).1.conversation_history
    ∧ (add_turn mgr_fresh_session 101 "a" "time" 1 empty_entities "r" true 0).conversation_history.map
        Prod.fst
      = mgr_fresh_session.conversation_history.map Prod.fst :=
  ⟨(C7_session_eviction.1 mgr_with_history 10000 (some "new") 0).1 _ (by decide),
   (C7_session_eviction.1 mgr_with_history 10000 (some "new") 0).2,
   C7_session_eviction.2 mgr_fresh_session
     { session_id := "s", started_at := 100, last_interaction := 100, turns := [] }
     101 "a" "time" 1 empty_entities "r" true 0 rfl⟩

/-- Counterexample to C7 as frozen: `add_turn` on a manager with no current
session implicitly starts one, and that start evicts the stale session
`old` — so eviction does happen during an `add_turn` call. -/
theorem C7_counterexample :
    mgr_with_history.current_context = none
    ∧ ("old", ctx_old) ∈ mgr_with_history.conversation_history
    ∧ ¬("old" ∈ (add_turn mgr_with_history 10000 "a" "hi" 1 empty_entities "r" true
          0).conversation_history.map Prod.fst) := by
  refine ⟨rfl, by decide, by decide⟩

/-- Witness for C4: the utterance `"time date clock"` contains all keywords
of exactly the example `time` action and none of the example `weather`
action, and resolves to `('time', 1.0)`. -/
theorem C4_keyword_matching_witness :
    keyword_based_matching example_catalog "time date clock" = ("time", 1) :=
  C4_keyword_matching.2.1 example_catalog "time date clock" example_time
    (by decide) (by decide) (by decide) (by decide)

theorem parse_digit_digit_char : ∀ d, d < 10 → parse_digit (digit_char d) = some d := by
  decide

theorem fromiso_go_digits (l : List Nat) (h : ∀ d ∈ l, d < 10) :
    ∀ acc, fromiso_go (l.map digit_char) acc
      = some (l.foldl (fun a d => a * 10 + d) acc) := by
  induction l with
  | nil => intro acc; rfl
  | cons d ds ih =>
    intro acc
    have hpd : parse_digit (digit_char d) = some d :=
      parse_digit_digit_char d (h d (List.mem_cons_self d ds))
    simp only [List.map_cons, fromiso_go, hpd, List.foldl_cons]
    exact ih (fun x hx => h x (List.mem_cons_of_mem d hx)) (acc * 10 + d)

theorem nat_to_digits_eq : ∀ fuel n, n ≤ fuel → nat_to_digits fuel n = Nat.digits 10 n := by
  intro fuel
  induction fuel with
  | zero =>
    intro n h
    have hn : n = 0 := by omega
    subst hn
    rw [Nat.digits_zero]
    rfl
  | succ f ih =>
    intro n h
    match n with
    | 0 =>
      rw [Nat.digits_zero]
      rfl
    | m + 1 =>
      show ((m + 1) % 10) :: nat_to_digits f ((m + 1) / 10) = Nat.digits 10 (m + 1)
      have hdiv : (m + 1) / 10 ≤ f := by
        have h1 : (m + 1) / 10 < m + 1 := Nat.div_lt_self (Nat.succ_pos m) (by norm_num)
        omega
      rw [ih _ hdiv, Nat.digits_def' (by norm_num : (1 : ℕ) < 10) (Nat.succ_pos m)]

theorem foldr_ofDigits (l : List Nat) :
    l.foldr (fun d a => a * 10 + d) 0 = Nat.ofDigits 10 l := by
  induction l with
  | nil => rfl
  | cons d ds ih =>
    rw [List.foldr_cons, ih, Nat.ofDigits_cons]
    ring

theorem fromiso_isoformat (t : Nat) : fromisoformat (isoformat t) = some t := by
  by_cases h0 : t = 0
  · subst h0
    rfl
  · unfold isoformat
    rw [if_neg h0, nat_to_digits_eq t t (le_refl t)]
    have hne : ((Nat.digits 10 t).reverse.map digit_char) ≠ [] := by
      simp only [ne_eq, List.map_eq_nil_iff, List.reverse_eq_nil_iff]
      exact Nat.digits_ne_nil_iff_ne_zero.mpr h0
    unfold fromisoformat
    rw [if_neg (by simpa [List.isEmpty_iff] using hne)]
    have hdig : ∀ d ∈ (Nat.digits 10 t).reverse, d < 10 := by
      intro d hd
      exact Nat.digits_lt_base (by norm_num) (List.mem_reverse.mp hd)
    show fromiso_go ((Nat.digits 10 t).reverse.map digit_char) 0 = some t
    rw [fromiso_go_digits _ hdig 0, List.foldl_reverse, foldr_ofDigits, Nat.ofDigits_digits]

theorem parse_turn_ser (t : ConversationTurn) : parse_turn (ser_turn t) = some t := by
  unfold parse_turn ser_turn
  rw [fromiso_isoformat]
  rfl

theorem parse_turns_ser (ts : List ConversationTurn) :
    parse_turns (ts.map ser_turn) = some ts := by
  induction ts with
  | nil => rfl
  | cons t rest ih =>
    simp only [List.map_cons, parse_turns, parse_turn_ser, ih]
    rfl

theorem parse_context_ser (c : ConversationContext) :
    parse_context (ser_context c) = some c := by
  unfold parse_context ser_context
  simp only [parse_turns_ser, fromiso_isoformat, Option.bind_eq_bind, Option.some_bind]
  rfl

theorem load_go_save : ∀ (l : List (String × ConversationContext))
    (acc : List (String × ConversationContext)),
    load_go (l.map (fun e => (e.1, ser_context e.2))) acc = acc ++ l := by
  intro l
  induction l with
  | nil =>
    intro acc
    simp [load_go]
  | cons e es ih =>
    intro acc
    simp only [List.map_cons, load_go, parse_context_ser]
    rw [ih]
    simp [List.append_assoc]

/-- C8 (confirmed).  For every manager state, saving the whole history and
loading the saved data into a fresh manager reproduces the history exactly:
the same session ids in the same order, and for each session the same
`started_at`, `last_interaction`, `turns` (with all turn fields),
`active_topic`, `location_context` and `user_preferences`; timestamps
round-trip exactly through their serialized (ISO) form.  The fresh
manager's `current_context` stays `none`. -/
theorem C8_round_trip (mgr : ConversationManager) (maxT stm : Nat) :
    (load_conversation_history (create_conversation_manager maxT stm)
        (.parsed (save_conversation_history mgr))).conversation_history
      = mgr.conversation_history
    ∧ (load_conversation_history (create_conversation_manager maxT stm)
        (.parsed (save_conversation_history mgr))).current_context = none := by
  constructor
  · show load_go (mgr.conversation_history.map (fun e => (e.1, ser_context e.2))) []
        = mgr.conversation_history
    rw [load_go_save]
    rfl
  · rfl

/-- C1 is right about the design and the code is in the wrong: the spec
requires a failed load to leave the in-memory history untouched, and indeed
an unreadable or JSON-malformed file (which raises before the mapping is
cleared) changes nothing — but a record that fails to reconstruct raises
AFTER `self.conversation_history = {}`, so the prior history is lost and
replaced by the partially reconstructed mapping.  At the failing input
below (one stored session `old`; a file with a single session whose turn
timestamp does not parse) the history afterwards is empty.  No exception
propagates in either case. -/
theorem C1_load_failure_clears_state :
    (load_conversation_history mgr_with_history .unreadable).conversation_history
      = [("old", ctx_old)]
    ∧ (load_conversation_history mgr_with_history
        (.parsed [("s1", bad_ser_context)])).conversation_history = []
    ∧ mgr_with_history.conversation_history = [("old", ctx_old)] :=
  ⟨rfl, rfl, rfl⟩

/-- C9 (amended).  `get_contextual_response` classifies in order: without a
current context it returns the base response; else a greeting-phrase match
yields a context-aware greeting (the welcome-back variant exactly when the
session has turns); else a farewell-phrase match yields a farewell with the
thank-you remark appended exactly when the session has turns; else, when
the session already has at least one turn (the guard the frozen claim
omits — see the counterexample) and the last turn used the same action
less than 2 minutes ago or the utterance contains a continuation word, the
base response is prefixed with an acknowledgment; otherwise the result is
`add_context_to_response`, which appends the location and topic hints only
when the stored value is truthy and not already present (case-insensitively)
in the response text. -/
theorem C9_contextual_response (mgr : ConversationManager) (now : Nat)
    (ui ip : String) (ents : Entities) (base : String) (g f a : Nat) :
    (mgr.current_context = none →
        get_contextual_response mgr now ui ip ents base g f a = base)
    ∧ (∀ c, mgr.current_context = some c →
        ((∃ p ∈ greeting_patterns, contains_sub p (py_lower ui) = true) →
            get_contextual_response mgr now ui ip ents base g f a
              = if c.turns ≠ [] then "Welcome back! What else can I help you with?"
                else pick greeting_responses g)
        ∧ ((∀ p ∈ greeting_patterns, contains_sub p (py_lower ui) = false) →
           (∃ p ∈ farewell_patterns, contains_sub p (py_lower ui) = true) →
            get_contextual_response mgr now ui ip ents base g f a
              = pick farewell_responses f
                ++ (if c.turns.length > 0 then " It was great helping you today!" else ""))
        ∧ ((∀ p ∈ greeting_patterns, contains_sub p (py_lower ui) = false) →
           (∀ p ∈ farewell_patterns, contains_sub p (py_lower ui) = false) →
           ∀ last, c.turns.getLast? = some last →
           ((now - last.timestamp < 120 ∧ ip = last.intent_plugin)
             ∨ ∃ w ∈ follow_up_words, contains_sub w (py_lower ui) = true) →
            get_contextual_response mgr now ui ip ents base g f a
              = pick acknowledgment_responses a ++ " Here\x27s more information:\n" ++ base)
        ∧ ((∀ p ∈ greeting_patterns, contains_sub p (py_lower ui) = false) →
           (∀ p ∈ farewell_patterns, contains_sub p (py_lower ui) = false) →
           is_follow_up_question (some c) now ui ip = false →
            get_contextual_response mgr now ui ip ents base g f a
              = add_context_to_response c base ip ents)
        ∧ (c.location_context = none → c.active_topic = none →
            add_context_to_response c base ip ents = base)
        ∧ (∀ loc, ip = "weather" → c.location_context = some loc →
            contains_sub (py_lower loc) (py_lower base) = true →
            add_context_to_response c base ip ents = base)) := by
  constructor
  · intro h
    unfold get_contextual_response
    rw [h, Option.elim_none]
  · intro c hc
    have hgr_t : (∃ p ∈ greeting_patterns, contains_sub p (py_lower ui) = true) →
        is_greeting ui = true := by
      intro hex
      unfold is_greeting
      rw [List.any_eq_true]
      simpa using hex
    have hgr_f : (∀ p ∈ greeting_patterns, contains_sub p (py_lower ui) = false) →
        is_greeting ui = false := by
      intro hall
      unfold is_greeting
      rw [List.any_eq_false]
      intro p hp
      simp [hall p hp]
    have hfw_t : (∃ p ∈ farewell_patterns, contains_sub p (py_lower ui) = true) →
        is_farewell ui = true := by
      intro hex
      unfold is_farewell
      rw [List.any_eq_true]
      simpa using hex
    have hfw_f : (∀ p ∈ farewell_patterns, contains_sub p (py_lower ui) = false) →
        is_farewell ui = false := by
      intro hall
      unfold is_farewell
      rw [List.any_eq_false]
      intro p hp
      simp [hall p hp]
    refine ⟨?_, ?_, ?_, ?_, ?_, ?_⟩
    · intro hex
      unfold get_contextual_response
      rw [hc, Option.elim_some, if_pos (hgr_t hex)]
      rfl
    · intro hng hex
      unfold get_contextual_response
      rw [hc, Option.elim_some, if_neg (by simp [hgr_f hng]), if_pos (hfw_t hex)]
      unfold get_farewell_response
      rw [Option.elim_some]
      by_cases hturn : c.turns.length > 0
      · rw [if_pos hturn, if_pos hturn]
      · rw [if_neg hturn, if_neg hturn, String.append_empty]
    · intro hng hnf last hlast hfu
      have hfut : is_follow_up_question (some c) now ui ip = true := by
        unfold is_follow_up_question
        rw [Option.elim_some, hlast, Option.elim_some]
        by_cases hcond : (now - last.timestamp < 120 && ip = last.intent_plugin) = true
        · rw [if_pos hcond]
        · rw [if_neg hcond]
          rcases hfu with ⟨h1, h2⟩ | ⟨w, hw, hsub⟩
          · exact absurd (by simp [h1, h2]) hcond
          · rw [List.any_eq_true]
            exact ⟨w, hw, hsub⟩
      unfold get_contextual_response
      rw [hc, Option.elim_some, if_neg (by simp [hgr_f hng]), if_neg (by simp [hfw_f hnf]),
          if_pos hfut]
      rfl
    · intro hng hnf hnfu
      unfold get_contextual_response
      rw [hc, Option.elim_some, if_neg (by simp [hgr_f hng]), if_neg (by simp [hfw_f hnf]),
          if_neg (by simp [hnfu])]
    · intro hloc htop
      simp only [add_context_to_response]
      rw [hloc, htop, Option.elim_none, Option.elim_none]
    · intro loc hip hloc hpresent
      simp only [add_context_to_response]
      rw [hloc, Option.elim_some]
      rw [if_neg (by simp [hpresent])]
      have hnotin : (["wiki", "google", "youtube", "github"].contains ip) = false := by
        rw [hip]
        decide
      cases htop : c.active_topic with
      | none => rw [Option.elim_none]
      | some t =>
        rw [Option.elim_some]
        have hcond : (t ≠ "" && ["wiki", "google", "youtube", "github"].contains ip &&
            !contains_sub (py_lower t) (py_lower base)) = false := by
          rw [hnotin]
          simp
        rw [if_neg (by rw [hcond]; simp)]

/-- Witness for C9: at a fresh session the greeting branch returns a pool
greeting, and with one prior turn a continuation-word utterance gets the
acknowledgment prefix. -/
theorem C9_contextual_response_witness :
    get_contextual_response mgr_fresh_session 100 "hello there" "hi" empty_entities "B" 0 0 0
      = pick greeting_responses 0
    ∧ get_contextual_response mgr_with_turn 100 "more please" "time" empty_entities "B" 0 0 0
      = pick acknowledgment_responses 0 ++ " Here\x27s more information:\n" ++ "B" := by
  constructor
  · have h := ((C9_contextual_response mgr_fresh_session 100 "hello there" "hi"
        empty_entities "B" 0 0 0).2
        { session_id := "s", started_at := 100, last_interaction := 100, turns := [] }
        rfl).1 (by decide)
    rw [h, if_neg (by decide)]
  · exact ((C9_contextual_response mgr_with_turn 100 "more please" "time"
        empty_entities "B" 0 0 0).2
        { session_id := "s", started_at := 90, last_interaction := 95,
          turns := [{ timestamp := 95, user_input := "w", intent_plugin := "weather",
                      intent_confidence := 1, entities := {}, sarah_response := "r",
                      execution_successful := true }] }
        rfl).2.2.1 (by decide) (by decide)
        { timestamp := 95, user_input := "w", intent_plugin := "weather",
          intent_confidence := 1, entities := {}, sarah_response := "r",
          execution_successful := true }
        rfl (Or.inr ⟨"more", by decide, by decide⟩)

/-- Counterexample to C9 as frozen: with a current session that has no
turns yet, the utterance "more" contains a continuation word and matches no
greeting or farewell phrase, so the claim prescribes an
acknowledgment-prefixed response — but `_is_follow_up_question` returns
False whenever the session has no prior turn, and the code returns the base
response unchanged. -/
theorem C9_counterexample :
    get_contextual_response mgr_fresh_session 100 "more" "time" empty_entities "BASE" 0 0 0
      = "BASE"
    ∧ "more" ∈ follow_up_words
    ∧ contains_sub "more" (py_lower "more") = true
    ∧ is_greeting "more" = false
    ∧ is_farewell "more" = false
    ∧ handle_follow_up "BASE" 0 = "Got it! Here\x27s more information:\nBASE"
    ∧ "BASE" ≠ "Got it! Here\x27s more information:\nBASE" := by
  refine ⟨by decide, by decide, by decide, by decide, by decide, rfl, by decide⟩

theorem insert_desc_perm (x : Suggestion) (l : List Suggestion) :
    List.Perm (insert_desc x l) (x :: l) := by
  induction l with
  | nil => exact List.Perm.refl _
  | cons y ys ih =>
    unfold insert_desc
    by_cases hxy : x.confidence ≤ y.confidence
    · rw [if_pos hxy]
      exact List.Perm.trans (List.Perm.cons y ih) (List.Perm.swap x y ys)
    · rw [if_neg hxy]

theorem insert_desc_sorted (x : Suggestion) (l : List Suggestion)
    (hs : l.Pairwise (fun a b => b.confidence ≤ a.confidence)) :
    (insert_desc x l).Pairwise (fun a b => b.confidence ≤ a.confidence) := by
  induction l with
  | nil => simp [insert_desc]
  | cons y ys ih =>
    rw [List.pairwise_cons] at hs
    unfold insert_desc
    by_cases hxy : x.confidence ≤ y.confidence
    · rw [if_pos hxy, List.pairwise_cons]
      refine ⟨?_, ih hs.2⟩
      intro z hz
      rcases List.mem_cons.mp ((insert_desc_perm x ys).mem_iff.mp hz) with rfl | hzys
      · exact hxy
      · exact hs.1 z hzys
    · rw [if_neg hxy, List.pairwise_cons]
      constructor
      · intro z hz
        rcases List.mem_cons.mp hz with rfl | hzys
        · exact le_of_lt (not_le.mp hxy)
        · exact le_trans (hs.1 z hzys) (le_of_lt (not_le.mp hxy))
      · exact List.pairwise_cons.mpr ⟨hs.1, hs.2⟩

theorem insert_desc_filter (x : Suggestion) (l : List Suggestion) (q : ℚ)
    (hs : l.Pairwise (fun a b => b.confidence ≤ a.confidence)) :
    (insert_desc x l).filter (fun s => decide (s.confidence = q))
      = l.filter (fun s => decide (s.confidence = q))
        ++ (if x.confidence = q then [x] else []) := by
  induction l with
  | nil =>
    by_cases hx : x.confidence = q <;> simp [insert_desc, List.filter, hx]
  | cons y ys ih =>
    rw [List.pairwise_cons] at hs
    unfold insert_desc
    by_cases hxy : x.confidence ≤ y.confidence
    · rw [if_pos hxy]
      by_cases hyq : y.confidence = q <;>
        simp [List.filter_cons, hyq, ih hs.2]
    · rw [if_neg hxy]
      by_cases hxq : x.confidence = q
      · have hfe : (y :: ys).filter (fun s => decide (s.confidence = q)) = [] := by
          rw [List.filter_eq_nil_iff]
          intro z hz
          have hlt : z.confidence < q := by
            rcases List.mem_cons.mp hz with rfl | hzys
            · rw [← hxq]
              exact not_le.mp hxy
            · exact lt_of_le_of_lt (hs.1 z hzys) (by rw [← hxq]; exact not_le.mp hxy)
          simp [ne_of_lt hlt]
        rw [List.filter_cons, hfe]
        simp [hxq]
      · rw [List.filter_cons]
        simp [hxq]

theorem sort_desc_foldl (l : List Suggestion) :
    ∀ acc : List Suggestion, acc.Pairwise (fun a b => b.confidence ≤ a.confidence) →
      (l.foldl (fun acc x => insert_desc x acc) acc).Pairwise
          (fun a b => b.confidence ≤ a.confidence)
      ∧ List.Perm (l.foldl (fun acc x => insert_desc x acc) acc) (acc ++ l)
      ∧ ∀ q : ℚ, (l.foldl (fun acc x => insert_desc x acc) acc).filter
            (fun s => decide (s.confidence = q))
          = acc.filter (fun s => decide (s.confidence = q))
            ++ l.filter (fun s => decide (s.confidence = q)) := by
  induction l with
  | nil =>
    intro acc hacc
    exact ⟨hacc, by simp, fun q => by simp⟩
  | cons x xs ih =>
    intro acc hacc
    simp only [List.foldl_cons]
    obtain ⟨hs, hp, hf⟩ := ih (insert_desc x acc) (insert_desc_sorted x acc hacc)
    refine ⟨hs, ?_, ?_⟩
    · exact hp.trans (((insert_desc_perm x acc).append_right xs).trans List.perm_middle.symm)
    · intro q
      rw [hf q, insert_desc_filter x acc q hacc, List.filter_cons]
      by_cases hxq : x.confidence = q <;> simp [hxq]

theorem sort_desc_sorted (l : List Suggestion) :
    (sort_desc l).Pairwise (fun a b => b.confidence ≤ a.confidence) :=
  (sort_desc_foldl l [] List.Pairwise.nil).1

theorem sort_desc_perm (l : List Suggestion) : List.Perm (sort_desc l) l :=
  (sort_desc_foldl l [] List.Pairwise.nil).2.1

theorem sort_desc_filter (l : List Suggestion) (q : ℚ) :
    (sort_desc l).filter (fun s => decide (s.confidence = q))
      = l.filter (fun s => decide (s.confidence = q)) :=
  (sort_desc_foldl l [] List.Pairwise.nil).2.2 q

/-- C5 (amended).  In embedding mode `get_suggestions` returns at most
`limit` entries, drawn from the per-plugin records (action name, similarity
confidence, that action's description), sorted by non-increasing confidence
by a stable sort: `sort_desc` permutes the catalog-ordered records and
preserves the relative order of equal-confidence entries (the filter at
each confidence value is unchanged).  In keyword-fallback mode the source
instead returns a single record — the best keyword match computed on the
RAW (uncleaned) input — with no description key and ignoring the limit,
contradicting the frozen claim (see the counterexample). -/
theorem C5_suggestions (sim : String → String → ℚ) (input : String) (limit : Nat) :
    (get_suggestions (.embedding sim) sarah_plugins input limit).length ≤ limit
    ∧ (get_suggestions (.embedding sim) sarah_plugins input limit).Pairwise
        (fun s1 s2 => s2.confidence ≤ s1.confidence)
    ∧ (∀ s ∈ get_suggestions (.embedding sim) sarah_plugins input limit,
        s ∈ sarah_plugins.map (fun p =>
          ({ plugin := p.name, confidence := sim (clean_input input) p.name,
             description := some p.description } : Suggestion)))
    ∧ List.Perm
        (sort_desc (sarah_plugins.map (fun p =>
          ({ plugin := p.name, confidence := sim (clean_input input) p.name,
             description := some p.description } : Suggestion))))
        (sarah_plugins.map (fun p =>
          ({ plugin := p.name, confidence := sim (clean_input input) p.name,
             description := some p.description } : Suggestion)))
    ∧ (∀ q : ℚ,
        (sort_desc (sarah_plugins.map (fun p =>
          ({ plugin := p.name, confidence := sim (clean_input input) p.name,
             description := some p.description } : Suggestion)))).filter
            (fun s => decide (s.confidence = q))
          = (sarah_plugins.map (fun p =>
              ({ plugin := p.name, confidence := sim (clean_input input) p.name,
                 description := some p.description } : Suggestion))).filter
              (fun s => decide (s.confidence = q)))
    ∧ get_suggestions .keyword sarah_plugins input limit
        = [{ plugin := (keyword_based_matching sarah_plugins input).1,
             confidence := (keyword_based_matching sarah_plugins input).2,
             description := none }] := by
  have hgs : get_suggestions (.embedding sim) sarah_plugins input limit
      = (sort_desc (sarah_plugins.map (fun p =>
          ({ plugin := p.name, confidence := sim (clean_input input) p.name,
             description := some p.description } : Suggestion)))).take limit := rfl
  refine ⟨?_, ?_, ?_, sort_desc_perm _, fun q => sort_desc_filter _ q, rfl⟩
  · rw [hgs]
    exact List.length_take_le _ _
  · rw [hgs]
    exact (sort_desc_sorted _).sublist (List.take_sublist _ _)
  · intro s hsm
    rw [hgs] at hsm
    have hmem : s ∈ sort_desc (sarah_plugins.map (fun p =>
        ({ plugin := p.name, confidence := sim (clean_input input) p.name,
           description := some p.description } : Suggestion))) :=
      (List.take_sublist _ _).subset hsm
    exact (sort_desc_perm _).mem_iff.mp hmem

/-- Witness for C5 at a concrete similarity (`time` scores 1, the rest 0)
and limit 3: the top suggestion is a catalog record. -/
theorem C5_suggestions_witness :
    ({ plugin := "time", confidence := 1,
       description := some "Show current time and date information" } : Suggestion)
      ∈ sarah_plugins.map (fun p =>
          ({ plugin := p.name,
             confidence := (fun (_ p2 : String) => if p2 = "time" then (1 : ℚ) else 0)
               (clean_input "x") p.name,
             description := some p.description } : Suggestion)) :=
  (C5_suggestions (fun _ p2 => if p2 = "time" then (1 : ℚ) else 0) "x" 3).2.2.1
    { plugin := "time", confidence := 1,
      description := some "Show current time and date information" }
    (by decide)

/-- Counterexample to C5 as frozen: in keyword-fallback mode
`get_suggestions` returns one record with no description even for limit 0
(so "at most limit entries, each carrying the description" fails), and it
scores the raw input instead of the cleaned input used by resolution: on
`"WEATHER"` the first catalog action scores 1/6 against the cleaned input
but 0 against the raw one. -/
theorem C5_counterexample :
    get_suggestions .keyword sarah_plugins "Hello" 0
      = [{ plugin := "hi", confidence := 0, description := none }]
    ∧ ¬((get_suggestions .keyword sarah_plugins "Hello" 0).length ≤ 0)
    ∧ (sarah_plugins.map (fun p => keyword_score (clean_input "WEATHER") p)).head?
        = some (1 / 6)
    ∧ (sarah_plugins.map (fun p => keyword_score "WEATHER" p)).head? = some 0 := by
  have hkbm : keyword_based_matching sarah_plugins "Hello" = ("hi", 0) := by
    rw [keyword_based_matching_eq_scan]
    apply best_scan_all_nonpos
    intro p hp
    have hall : ∀ q ∈ sarah_plugins,
        q.keywords.countP (fun k => contains_sub k "Hello") = 0 := by decide
    exact le_of_eq (keyword_score_zero "Hello" p (hall p hp))
  have h1 : get_suggestions .keyword sarah_plugins "Hello" 0
      = [{ plugin := "hi", confidence := 0, description := none }] := by
    show [({ plugin := (keyword_based_matching sarah_plugins "Hello").1,
             confidence := (keyword_based_matching sarah_plugins "Hello").2,
             description := none } : Suggestion)] = _
    rw [hkbm]
  refine ⟨h1, ?_, ?_, ?_⟩
  · rw [h1]
    simp
  · simp only [sarah_plugins, List.map_cons, List.head?_cons]
    congr 1
  · simp only [sarah_plugins, List.map_cons, List.head?_cons]
    congr 1
    apply keyword_score_zero
    decide
